import Mathlib

/- Verification of the br-lsp language-server core against its specification.
   The Rust sources (src/workspace.rs, src/extract.rs, src/diagnostics.rs,
   src/references.rs, src/code_action.rs, src/parser.rs, src/builtins.rs) are
   shallowly embedded below: pure Rust functions become Lean functions, the
   tree-sitter syntax tree becomes an explicit inductive tree, and the
   workspace index becomes a map from lowercase names to definition lists.
   Machine integers (usize, i64) are modelled as Nat and Int with the Rust
   division and bounds made explicit where they matter. -/

namespace BrLsp

/-! ## ASCII string helpers (Rust std semantics, made kernel-computable) -/

/-- Rust u8/char::to_ascii_lowercase on one character. -/
def ascii_lower_char (c : Char) : Char :=
  if 65 ≤ c.toNat ∧ c.toNat ≤ 90 then Char.ofNat (c.toNat + 32) else c

/-- Rust str::to_ascii_lowercase. -/
def to_ascii_lowercase (s : String) : String :=
  String.mk (s.data.map ascii_lower_char)

/-- Rust str::eq_ignore_ascii_case. -/
def eq_ignore_ascii_case (a b : String) : Bool :=
  to_ascii_lowercase a == to_ascii_lowercase b

/-- Whether the first list leads the second (Rust str::starts_with, on chars). -/
def chars_lead : List Char → List Char → Bool
  | [], _ => true
  | _ :: _, [] => false
  | p :: ps, c :: cs => p == c && chars_lead ps cs

/-- Rust str::starts_with with a string pattern. -/
def str_begins (s pat : String) : Bool := chars_lead pat.data s.data

/-- Rust str::ends_with with a string pattern. -/
def str_ends (s pat : String) : Bool := chars_lead pat.data.reverse s.data.reverse

/-- Rust str::strip_suffix. -/
def strip_suffix_str (s pat : String) : Option String :=
  if str_ends s pat then
    some (String.mk (s.data.take (s.data.length - pat.data.length)))
  else none

/-- Substring containment on char lists (Rust str::contains). -/
def chars_infix : List Char → List Char → Bool
  | needle, [] => needle.isEmpty
  | needle, c :: cs => chars_lead needle (c :: cs) || chars_infix needle cs

/-- Rust str::contains with a string pattern. -/
def str_has (s pat : String) : Bool := chars_infix pat.data s.data

/-- Rust char::is_whitespace restricted to the ASCII range (sources are CP437). -/
def is_ws (c : Char) : Bool :=
  c == ' ' || c == '\t' || c == '\n' || c == '\r' || c == '\x0b' || c == '\x0c'

/-- Rust str::trim. -/
def trim_str (s : String) : String :=
  String.mk (((s.data.dropWhile is_ws).reverse.dropWhile is_ws).reverse)

/-- Digit run to a natural number; none on empty input or a non-digit. -/
def digits_to_nat : List Char → Option Nat
  | [] => none
  | [c] => if c.isDigit then some (c.toNat - 48) else none
  | c :: cs =>
    if c.isDigit then
      (digits_to_nat cs).map (fun n => (c.toNat - 48) * 10 ^ cs.length + n)
    else none

/-- Rust str::parse::<i64>: optional sign, at least one digit, i64 bounds. -/
def parse_i64 (s : String) : Option Int :=
  match s.data with
  | '+' :: rest =>
    (digits_to_nat rest).bind fun n =>
      if n ≤ 2 ^ 63 - 1 then some (Int.ofNat n) else none
  | '-' :: rest =>
    (digits_to_nat rest).bind fun n =>
      if n ≤ 2 ^ 63 then some (-(Int.ofNat n)) else none
  | cs =>
    (digits_to_nat cs).bind fun n =>
      if n ≤ 2 ^ 63 - 1 then some (Int.ofNat n) else none

/-- Left-pad a string with zeros up to a width. -/
def pad_zeros (w : Nat) (s : String) : String :=
  if s.length < w then String.mk (List.replicate (w - s.length) '0') ++ s else s

/-- Rust format specifier {:05} applied to an i64 value. -/
def fmt05 (n : Int) : String :=
  if n < 0 then "-" ++ pad_zeros 4 (toString n.natAbs) else pad_zeros 5 (toString n.natAbs)

/-- An apostrophe character, used by the diagnostic message formats. -/
def sq : String := "\x27"

/-! ## A stable sort by key, modelling Rust slice::sort_by_key
(Rust's sort is stable; insertion sort is the canonical stable sort). -/

def ordered_insert_by {α : Type} (key : α → Nat) (a : α) : List α → List α
  | [] => [a]
  | b :: l => if key a ≤ key b then a :: b :: l else b :: ordered_insert_by key a l

def sort_by_key {α : Type} (key : α → Nat) : List α → List α
  | [] => []
  | b :: l => ordered_insert_by key b (sort_by_key key l)

theorem ordered_insert_by_perm {α : Type} (key : α → Nat) (a : α) (l : List α) :
    List.Perm (ordered_insert_by key a l) (a :: l) := by
  induction l with
  | nil => simp [ordered_insert_by]
  | cons b t ih =>
    by_cases h : key a ≤ key b
    · simp [ordered_insert_by, h]
    · simp only [ordered_insert_by, if_neg h]
      exact (List.Perm.cons b ih).trans (List.Perm.swap a b t)

theorem sort_by_key_perm {α : Type} (key : α → Nat) (l : List α) :
    List.Perm (sort_by_key key l) l := by
  induction l with
  | nil => simp [sort_by_key]
  | cons b t ih => exact (ordered_insert_by_perm key b _).trans (List.Perm.cons b ih)

theorem mem_sort_by_key {α : Type} (key : α → Nat) (l : List α) (x : α) :
    x ∈ sort_by_key key l ↔ x ∈ l :=
  (sort_by_key_perm key l).mem_iff

theorem pairwise_ordered_insert_by {α : Type} (key : α → Nat) (a : α) (l : List α)
    (h : l.Pairwise (fun x y => key x ≤ key y)) :
    (ordered_insert_by key a l).Pairwise (fun x y => key x ≤ key y) := by
  induction l with
  | nil => simp [ordered_insert_by]
  | cons b t ih =>
    rcases List.pairwise_cons.mp h with ⟨hb, ht⟩
    by_cases hab : key a ≤ key b
    · simp only [ordered_insert_by, if_pos hab]
      refine List.pairwise_cons.mpr ⟨?_, h⟩
      intro y hy
      rcases List.mem_cons.mp hy with rfl | hy
      · exact hab
      · exact le_trans hab (hb y hy)
    · simp only [ordered_insert_by, if_neg hab]
      refine List.pairwise_cons.mpr ⟨?_, ih ht⟩
      intro y hy
      rcases List.mem_cons.mp ((ordered_insert_by_perm key a t).mem_iff.mp hy) with rfl | hy
      · exact le_of_not_le hab
      · exact hb y hy

theorem pairwise_sort_by_key {α : Type} (key : α → Nat) (l : List α) :
    (sort_by_key key l).Pairwise (fun x y => key x ≤ key y) := by
  induction l with
  | nil => simp [sort_by_key]
  | cons b t ih => exact pairwise_ordered_insert_by key b _ ih

theorem sort_by_key_head_min {α : Type} (key : α → Nat) (l : List α) (x : α) (xs : List α)
    (h : sort_by_key key l = x :: xs) : ∀ y ∈ l, key x ≤ key y := by
  intro y hy
  have hp := pairwise_sort_by_key key l
  rw [h] at hp
  have hmem : y ∈ x :: xs := by
    rw [← h]
    exact (mem_sort_by_key key l y).mpr hy
  rcases List.mem_cons.mp hmem with rfl | hmem
  · exact le_refl _
  · exact (List.pairwise_cons.mp hp).1 y hmem

theorem sort_by_key_eq_nil {α : Type} (key : α → Nat) (l : List α) :
    sort_by_key key l = [] ↔ l = [] := by
  constructor
  · intro h
    have := sort_by_key_perm key l
    rw [h] at this
    exact this.symm.eq_nil
  · intro h
    rw [h]
    rfl

/-! ## LSP positions, ranges, diagnostics -/

structure Position where
  line : Nat
  character : Nat
deriving DecidableEq, Repr

structure Range where
  start : Position
  stop : Position
deriving DecidableEq, Repr

def range0 : Range := ⟨⟨0, 0⟩, ⟨0, 0⟩⟩

inductive Severity where
  | error
  | warning
deriving DecidableEq, Repr

/-- tower_lsp Diagnostic, restricted to the fields the server sets. -/
structure Diagnostic where
  range : Range
  severity : Option Severity
  code : Option String
  message : String
deriving DecidableEq, Repr

/-! ## Function definitions (src/extract.rs data model)
The documentation fields (documentation, return_documentation, per-param
documentation) are elided: no checked claim observes them. -/

inductive ParamKind where
  | Numeric
  | String
  | NumericArray
  | StringArray
deriving DecidableEq, Repr

structure ParamInfo where
  name : String
  kind : ParamKind
  is_optional : Bool
  is_reference : Bool
deriving DecidableEq, Repr

structure FunctionDef where
  name : String
  range : Range
  selection_range : Range
  is_library : Bool
  is_import_only : Bool
  params : List ParamInfo
  has_param_substitution : Bool
deriving DecidableEq, Repr

/-- The Rust field is named def, a Lean keyword; it is called defn here. -/
structure IndexedFunctionDef where
  uri : String
  defn : FunctionDef
deriving DecidableEq, Repr

/-! ## Workspace index (src/workspace.rs)
The HashMap from lowercase name to Vec of entries is modelled as a total
function from keys to lists; the Rust code drops keys whose Vec becomes
empty, which is not observable through lookup. -/

structure WorkspaceIndex where
  definitions : String → List IndexedFunctionDef

/-- WorkspaceIndex::new. -/
def WorkspaceIndex.new : WorkspaceIndex := ⟨fun _ => []⟩

/-- WorkspaceIndex::add_file: push every def onto the Vec of its lowercased
name, in order. -/
def WorkspaceIndex.add_file (idx : WorkspaceIndex) (uri : String)
    (defs : List FunctionDef) : WorkspaceIndex :=
  ⟨fun k =>
    idx.definitions k ++
      ((defs.filter fun d => to_ascii_lowercase d.name == k).map fun d => ⟨uri, d⟩)⟩

/-- WorkspaceIndex::remove_file: retain only entries with a different URI. -/
def WorkspaceIndex.remove_file (idx : WorkspaceIndex) (uri : String) : WorkspaceIndex :=
  ⟨fun k => (idx.definitions k).filter fun e => !(e.uri == uri)⟩

/-- WorkspaceIndex::update_file = remove_file then add_file. -/
def WorkspaceIndex.update_file (idx : WorkspaceIndex) (uri : String)
    (defs : List FunctionDef) : WorkspaceIndex :=
  (idx.remove_file uri).add_file uri defs

/-- WorkspaceIndex::lookup. -/
def WorkspaceIndex.lookup (idx : WorkspaceIndex) (name : String) : List IndexedFunctionDef :=
  idx.definitions (to_ascii_lowercase name)

/-- The sort key of WorkspaceIndex::lookup_prioritized, written as the
equivalent if-chain of the Rust match on (is_local, is_import_only, is_library):
(true, false, _) => 0, (_, false, true) => 1, (_, false, false) => 2,
(_, true, _) => 3. -/
def priority_bucket (current_uri : String) (d : IndexedFunctionDef) : Nat :=
  if d.uri = current_uri ∧ d.defn.is_import_only = false then 0
  else if d.defn.is_import_only = false ∧ d.defn.is_library = true then 1
  else if d.defn.is_import_only = false then 2
  else 3

/-- WorkspaceIndex::lookup_prioritized (a stable sort_by_key). -/
def WorkspaceIndex.lookup_prioritized (idx : WorkspaceIndex)
    (name current_uri : String) : List IndexedFunctionDef :=
  sort_by_key (priority_bucket current_uri) (idx.lookup name)

/-- WorkspaceIndex::lookup_best. -/
def WorkspaceIndex.lookup_best (idx : WorkspaceIndex)
    (name current_uri : String) : Option IndexedFunctionDef :=
  (idx.lookup_prioritized name current_uri).head?

/-! ## Library path normalization (src/extract.rs) -/

/-- normalize_library_path: backslash to slash, ASCII lowercase, then strip a
.brs, .wbs or .dll suffix (no other extension is stripped). -/
def normalize_library_path (raw : String) : String :=
  let s := to_ascii_lowercase (String.mk (raw.data.map fun c => if c == '\\' then '/' else c))
  ((strip_suffix_str s ".brs").orElse fun _ =>
    (strip_suffix_str s ".wbs").orElse fun _ =>
      strip_suffix_str s ".dll").getD s

/-! ## C1: priority order of lookup_best -/

theorem priority_bucket_cases (U : String) (d : IndexedFunctionDef) :
    (priority_bucket U d = 0 ∧ d.uri = U ∧ d.defn.is_import_only = false) ∨
    (priority_bucket U d = 1 ∧ d.defn.is_import_only = false ∧ d.defn.is_library = true) ∨
    (priority_bucket U d = 2 ∧ d.defn.is_import_only = false) ∨
    (priority_bucket U d = 3 ∧ d.defn.is_import_only = true) := by
  unfold priority_bucket
  split_ifs with h1 h2 h3
  · exact Or.inl ⟨rfl, h1⟩
  · exact Or.inr (Or.inl ⟨rfl, h2⟩)
  · exact Or.inr (Or.inr (Or.inl ⟨rfl, h3⟩))
  · refine Or.inr (Or.inr (Or.inr ⟨rfl, ?_⟩))
    revert h3
    cases d.defn.is_import_only <;> simp

theorem priority_bucket_of_local (U : String) (d : IndexedFunctionDef)
    (h : d.uri = U ∧ d.defn.is_import_only = false) : priority_bucket U d = 0 := by
  unfold priority_bucket
  rw [if_pos h]

theorem priority_bucket_le_of_library (U : String) (d : IndexedFunctionDef)
    (h : d.defn.is_import_only = false ∧ d.defn.is_library = true) :
    priority_bucket U d ≤ 1 := by
  unfold priority_bucket
  by_cases h1 : d.uri = U ∧ d.defn.is_import_only = false
  · rw [if_pos h1]
    omega
  · rw [if_neg h1, if_pos h]

theorem priority_bucket_le_of_non_import (U : String) (d : IndexedFunctionDef)
    (h : d.defn.is_import_only = false) : priority_bucket U d ≤ 2 := by
  unfold priority_bucket
  by_cases h1 : d.uri = U ∧ d.defn.is_import_only = false
  · rw [if_pos h1]
    omega
  · rw [if_neg h1]
    by_cases h2 : d.defn.is_import_only = false ∧ d.defn.is_library = true
    · rw [if_pos h2]
      omega
    · rw [if_neg h2, if_pos h]

/-- C1 (amended): for every index state, lookup_best(name, U) returns a
same-URI non-import-only definition whenever one exists; else a
non-import-only definition flagged is_library; else any non-import-only
definition; else an import-only definition; none exactly when the name has
no definitions.  (The claimed second bucket, a library-link suffix match
against the link map of the current file, is not consulted by lookup_best:
its sort key lookup_prioritized has only the four buckets above.) -/
theorem lookup_best_priority_order (idx : WorkspaceIndex) (name current_uri : String) :
    (idx.lookup_best name current_uri = none ↔ idx.lookup name = []) ∧
    (∀ d, idx.lookup_best name current_uri = some d → d ∈ idx.lookup name) ∧
    ((∃ d ∈ idx.lookup name, d.uri = current_uri ∧ d.defn.is_import_only = false) →
      ∃ d, idx.lookup_best name current_uri = some d ∧
        d.uri = current_uri ∧ d.defn.is_import_only = false) ∧
    ((¬ ∃ d ∈ idx.lookup name, d.uri = current_uri ∧ d.defn.is_import_only = false) →
      (∃ d ∈ idx.lookup name, d.defn.is_import_only = false ∧ d.defn.is_library = true) →
      ∃ d, idx.lookup_best name current_uri = some d ∧
        d.defn.is_import_only = false ∧ d.defn.is_library = true) ∧
    ((¬ ∃ d ∈ idx.lookup name, d.uri = current_uri ∧ d.defn.is_import_only = false) →
      (¬ ∃ d ∈ idx.lookup name, d.defn.is_import_only = false ∧ d.defn.is_library = true) →
      (∃ d ∈ idx.lookup name, d.defn.is_import_only = false) →
      ∃ d, idx.lookup_best name current_uri = some d ∧ d.defn.is_import_only = false) ∧
    ((¬ ∃ d ∈ idx.lookup name, d.defn.is_import_only = false) →
      idx.lookup name ≠ [] →
      ∃ d, idx.lookup_best name current_uri = some d ∧ d.defn.is_import_only = true) := by
  cases hs : sort_by_key (priority_bucket current_uri) (idx.lookup name) with
  | nil =>
    have hnil : idx.lookup name = [] := (sort_by_key_eq_nil _ _).mp hs
    have hbest : idx.lookup_best name current_uri = none := by
      simp [WorkspaceIndex.lookup_best, WorkspaceIndex.lookup_prioritized, hs]
    refine ⟨⟨fun _ => hnil, fun _ => hbest⟩, ?_, ?_, ?_, ?_, ?_⟩ <;>
      simp [hbest, hnil]
  | cons d ds =>
    have hbest : idx.lookup_best name current_uri = some d := by
      simp [WorkspaceIndex.lookup_best, WorkspaceIndex.lookup_prioritized, hs]
    have hmem : d ∈ idx.lookup name := by
      refine (mem_sort_by_key (priority_bucket current_uri) _ d).mp ?_
      rw [hs]
      exact List.mem_cons_self d ds
    have hmin : ∀ y ∈ idx.lookup name,
        priority_bucket current_uri d ≤ priority_bucket current_uri y :=
      sort_by_key_head_min _ _ _ _ hs
    refine ⟨⟨fun h => ?_, fun h => ?_⟩, fun d' h' => ?_, ?_, ?_, ?_, ?_⟩
    · rw [hbest] at h
      cases h
    · rw [h] at hmem
      cases hmem
    · rw [hbest] at h'
      cases h'
      exact hmem
    · rintro ⟨w, hwmem, hw⟩
      have h0 : priority_bucket current_uri d = 0 := by
        have := hmin w hwmem
        rw [priority_bucket_of_local current_uri w hw] at this
        omega
      rcases priority_bucket_cases current_uri d with ⟨_, hp⟩ | ⟨hv, _⟩ | ⟨hv, _⟩ | ⟨hv, _⟩
      · exact ⟨d, hbest, hp⟩
      · omega
      · omega
      · omega
    · rintro hnp0 ⟨w, hwmem, hw⟩
      have h1 : priority_bucket current_uri d ≤ 1 :=
        le_trans (hmin w hwmem) (priority_bucket_le_of_library current_uri w hw)
      rcases priority_bucket_cases current_uri d with ⟨_, hp⟩ | ⟨_, hp⟩ | ⟨hv, _⟩ | ⟨hv, _⟩
      · exact absurd ⟨d, hmem, hp⟩ hnp0
      · exact ⟨d, hbest, hp⟩
      · omega
      · omega
    · rintro hnp0 hnp1 ⟨w, hwmem, hw⟩
      have h2 : priority_bucket current_uri d ≤ 2 :=
        le_trans (hmin w hwmem) (priority_bucket_le_of_non_import current_uri w hw)
      rcases priority_bucket_cases current_uri d with ⟨_, hp⟩ | ⟨_, hp⟩ | ⟨_, hp⟩ | ⟨hv, _⟩
      · exact absurd ⟨d, hmem, hp⟩ hnp0
      · exact absurd ⟨d, hmem, hp⟩ hnp1
      · exact ⟨d, hbest, hp⟩
      · omega
    · rintro hnp2 _
      rcases priority_bucket_cases current_uri d with ⟨_, hp⟩ | ⟨_, hp⟩ | ⟨_, hp⟩ | ⟨_, hp⟩
      · exact absurd ⟨d, hmem, hp.2⟩ hnp2
      · exact absurd ⟨d, hmem, hp.1⟩ hnp2
      · exact absurd ⟨d, hmem, hp⟩ hnp2
      · exact ⟨d, hbest, hp⟩

/-- Modelled from the spec: the library-link suffix match that the claim
assigns to the second priority bucket of lookup_best.  The link-aware
resolver (lookup_prioritized_with_links) is only called, never defined, in
the sources; following the spec text, a candidate matches when its URI,
normalized like a library path, ends with the recorded normalized library
path as a path suffix. -/
def uri_matches_link (uri path : String) : Bool :=
  str_ends (normalize_library_path uri) ("/" ++ path)

def best_satisfies (best : Option IndexedFunctionDef)
    (p : IndexedFunctionDef → Bool) : Bool :=
  match best with
  | some d => p d
  | none => false

/-- C1 exactly as claimed: lookup_best follows the five-bucket priority
(local, library-link match, library-flagged, any non-import-only, lastly
the import-only defs) relative to the link map of the current file. -/
def c1_claim_statement (idx : WorkspaceIndex) (links : String → Option String)
    (name current_uri : String) : Bool :=
  let l := idx.lookup name
  let best := idx.lookup_best name current_uri
  let p0 : IndexedFunctionDef → Bool :=
    fun d => d.uri == current_uri && !d.defn.is_import_only
  let p1 : IndexedFunctionDef → Bool := fun d =>
    match links (to_ascii_lowercase name) with
    | some p => uri_matches_link d.uri p
    | none => false
  let p2 : IndexedFunctionDef → Bool :=
    fun d => !d.defn.is_import_only && d.defn.is_library
  let p3 : IndexedFunctionDef → Bool := fun d => !d.defn.is_import_only
  if l.any p0 then best_satisfies best p0
  else if l.any p1 then best_satisfies best p1
  else if l.any p2 then best_satisfies best p2
  else if l.any p3 then best_satisfies best p3
  else if !l.isEmpty then best_satisfies best fun d => d.defn.is_import_only
  else best == none

def c1_lib_def : FunctionDef :=
  ⟨"fnFoo", range0, range0, true, false, [], false⟩

def c1_link_def : FunctionDef :=
  ⟨"fnFoo", range0, range0, false, false, [], false⟩

def c1_index : WorkspaceIndex :=
  (WorkspaceIndex.new.add_file "file:///ws/other.brs" [c1_lib_def]).add_file
    "file:///ws/vol002/rtflib.brs" [c1_link_def]

def c1_links : String → Option String :=
  fun k => if k == "fnfoo" then some "vol002/rtflib" else none

/-- C1 counterexample: with a link map sending fnfoo to vol002/rtflib, a
matching non-library definition in file:///ws/vol002/rtflib.brs and a
library-flagged definition elsewhere, lookup_best returns the
library-flagged definition, not the link match: the claimed second bucket
does not exist in lookup_prioritized. -/
theorem c1_claim_fails :
    c1_claim_statement c1_index c1_links "fnFoo" "file:///ws/main.brs" = false := by
  decide

def c1_local_def : FunctionDef :=
  ⟨"fnFoo", range0, range0, false, false, [], false⟩

def c1_windex : WorkspaceIndex :=
  (WorkspaceIndex.new.add_file "file:///ws/remote.brs" [c1_lib_def]).add_file
    "file:///ws/local.brs" [c1_local_def]

/-- Witness for the amended C1 at a concrete index: the local definition
wins over a library-flagged one from another file. -/
theorem lookup_best_priority_order_witness :
    ∃ d, c1_windex.lookup_best "fnFoo" "file:///ws/local.brs" = some d ∧
      d.uri = "file:///ws/local.brs" ∧ d.defn.is_import_only = false :=
  (lookup_best_priority_order c1_windex "fnFoo" "file:///ws/local.brs").2.2.1 (by decide)

/-! ## C2: index coherence under add_file / update_file / remove_file -/

inductive IndexOp where
  | add (uri : String) (defs : List FunctionDef)
  | update (uri : String) (defs : List FunctionDef)
  | remove (uri : String)

def apply_op (idx : WorkspaceIndex) : IndexOp → WorkspaceIndex
  | .add u ds => idx.add_file u ds
  | .update u ds => idx.update_file u ds
  | .remove u => idx.remove_file u

def apply_ops (idx : WorkspaceIndex) : List IndexOp → WorkspaceIndex
  | [] => idx
  | op :: rest => apply_ops (apply_op idx op) rest

/-- Whether an operation removes or replaces the entries of a URI. -/
def clears_uri (u : String) : IndexOp → Bool
  | .add _ _ => false
  | .update v _ => v == u
  | .remove v => v == u

def any_clears (ops : List IndexOp) (u : String) : Bool :=
  ops.any (clears_uri u)

/-- The entries an add_file(u, ds) contributes to the bucket of name n. -/
def entries_for (n u : String) (ds : List FunctionDef) : List IndexedFunctionDef :=
  (ds.filter fun d => to_ascii_lowercase d.name == to_ascii_lowercase n).map
    fun d => ⟨u, d⟩

/-- The claim-side characterization: after a sequence of operations on an
empty index, the bucket of n holds exactly the definitions contributed by
add/update operations whose URI is not subsequently removed or replaced, in
operation order. -/
def ops_spec (n : String) : List IndexOp → List IndexedFunctionDef
  | [] => []
  | .add u ds :: rest =>
    (if any_clears rest u then [] else entries_for n u ds) ++ ops_spec n rest
  | .update u ds :: rest =>
    (if any_clears rest u then [] else entries_for n u ds) ++ ops_spec n rest
  | .remove _ :: rest => ops_spec n rest

theorem entries_filter_clears (rest : List IndexOp) (n u : String) (ds : List FunctionDef) :
    ((entries_for n u ds).filter fun e => !any_clears rest e.uri) =
      if any_clears rest u then [] else entries_for n u ds := by
  unfold entries_for
  generalize (ds.filter fun d => to_ascii_lowercase d.name == to_ascii_lowercase n) = l
  induction l with
  | nil => cases hc : any_clears rest u <;> simp [hc]
  | cons a t ih =>
    simp only [List.map_cons, List.filter_cons]
    cases hc : any_clears rest u <;> simp [hc] at ih ⊢ <;> simp [ih]

theorem lookup_apply_ops (ops : List IndexOp) (idx : WorkspaceIndex) (n : String) :
    (apply_ops idx ops).lookup n =
      ((idx.lookup n).filter fun e => !any_clears ops e.uri) ++ ops_spec n ops := by
  induction ops generalizing idx with
  | nil =>
    simp [apply_ops, ops_spec, any_clears]
  | cons op rest ih =>
    cases op with
    | add u ds =>
      have h1 : (idx.add_file u ds).lookup n = idx.lookup n ++ entries_for n u ds := rfl
      have h2 : ∀ v, any_clears (IndexOp.add u ds :: rest) v = any_clears rest v := by
        intro v
        simp [any_clears, clears_uri]
      show (apply_ops (idx.add_file u ds) rest).lookup n = _
      rw [ih, h1, List.filter_append, entries_filter_clears]
      simp only [ops_spec, h2]
      cases hc : any_clears rest u <;> simp [hc, List.append_assoc]
    | update u ds =>
      have h1 : ((idx.remove_file u).add_file u ds).lookup n =
          ((idx.lookup n).filter fun e => !(e.uri == u)) ++ entries_for n u ds := rfl
      show (apply_ops ((idx.remove_file u).add_file u ds) rest).lookup n = _
      rw [ih, h1, List.filter_append, entries_filter_clears, List.filter_filter]
      have h3 : ((idx.lookup n).filter fun a => !any_clears rest a.uri && !(a.uri == u)) =
          (idx.lookup n).filter fun e => !any_clears (IndexOp.update u ds :: rest) e.uri := by
        refine List.filter_congr ?_
        intro a _
        have h2 : any_clears (IndexOp.update u ds :: rest) a.uri =
            ((u == a.uri) || any_clears rest a.uri) := by
          simp [any_clears, clears_uri]
        rw [h2]
        by_cases hv : a.uri = u
        · simp [hv]
        · have h4 : (a.uri == u) = false := beq_eq_false_iff_ne.mpr hv
          have h5 : (u == a.uri) = false := beq_eq_false_iff_ne.mpr (Ne.symm hv)
          simp [h4, h5]
      rw [h3]
      simp only [ops_spec]
      cases hc : any_clears rest u <;> simp [hc, List.append_assoc]
    | remove u =>
      have h1 : (idx.remove_file u).lookup n =
          (idx.lookup n).filter fun e => !(e.uri == u) := rfl
      show (apply_ops (idx.remove_file u) rest).lookup n = _
      rw [ih, h1, List.filter_filter]
      have h3 : ((idx.lookup n).filter fun a => !any_clears rest a.uri && !(a.uri == u)) =
          (idx.lookup n).filter fun e => !any_clears (IndexOp.remove u :: rest) e.uri := by
        refine List.filter_congr ?_
        intro a _
        have h2 : any_clears (IndexOp.remove u :: rest) a.uri =
            ((u == a.uri) || any_clears rest a.uri) := by
          simp [any_clears, clears_uri]
        rw [h2]
        by_cases hv : a.uri = u
        · simp [hv]
        · have h4 : (a.uri == u) = false := beq_eq_false_iff_ne.mpr hv
          have h5 : (u == a.uri) = false := beq_eq_false_iff_ne.mpr (Ne.symm hv)
          simp [h4, h5]
      rw [h3]
      simp only [ops_spec]

/-- C2: after any finite sequence of add_file / update_file / remove_file
operations on an empty index, lookup(n) holds exactly the definitions added
for URIs that were not subsequently removed or replaced; remove_file(u)
deletes every entry whose URI equals u, and update_file is definitionally
remove_file followed by add_file, so no stale entry remains. -/
theorem index_coherence :
    (∀ (ops : List IndexOp) (n : String),
      (apply_ops WorkspaceIndex.new ops).lookup n = ops_spec n ops) ∧
    (∀ (idx : WorkspaceIndex) (u n : String),
      (idx.remove_file u).lookup n = (idx.lookup n).filter fun e => !(e.uri == u)) ∧
    (∀ (idx : WorkspaceIndex) (u : String) (ds : List FunctionDef),
      idx.update_file u ds = (idx.remove_file u).add_file u ds) := by
  refine ⟨fun ops n => ?_, fun idx u n => rfl, fun idx u ds => rfl⟩
  rw [lookup_apply_ops]
  have : (WorkspaceIndex.new.lookup n) = [] := rfl
  rw [this]
  rfl

/-! ## The concrete syntax tree
A tree-sitter node carries a kind, a named flag, the field name its parent
assigned to it (child_by_field_name), byte extents, point extents and its
source text (utf8_text).  The grammar itself is opaque to the server, so the
theorems below quantify over arbitrary trees. -/

inductive Node where
  | mk (kind : String) (named : Bool) (fieldName : Option String)
       (startByte endByte : Nat) (startPos endPos : Position)
       (text : String) (children : List Node)

def Node.kind : Node → String
  | .mk k _ _ _ _ _ _ _ _ => k

def Node.named : Node → Bool
  | .mk _ nm _ _ _ _ _ _ _ => nm

def Node.fieldName : Node → Option String
  | .mk _ _ f _ _ _ _ _ _ => f

def Node.startByte : Node → Nat
  | .mk _ _ _ sb _ _ _ _ _ => sb

def Node.endByte : Node → Nat
  | .mk _ _ _ _ eb _ _ _ _ => eb

def Node.startPos : Node → Position
  | .mk _ _ _ _ _ sp _ _ _ => sp

def Node.endPos : Node → Position
  | .mk _ _ _ _ _ _ ep _ _ => ep

def Node.text : Node → String
  | .mk _ _ _ _ _ _ _ tx _ => tx

def Node.children : Node → List Node
  | .mk _ _ _ _ _ _ _ _ cs => cs

/- Structural equality of nodes (used to model pointer identity of
tree-sitter nodes; in a parsed tree byte extents make nodes unique). -/
mutual
def node_beq : Node → Node → Bool
  | .mk k1 n1 f1 sb1 eb1 sp1 ep1 t1 cs1, .mk k2 n2 f2 sb2 eb2 sp2 ep2 t2 cs2 =>
    k1 == k2 && n1 == n2 && f1 == f2 && sb1 == sb2 && eb1 == eb2 &&
      sp1 == sp2 && ep1 == ep2 && t1 == t2 && node_list_beq cs1 cs2
def node_list_beq : List Node → List Node → Bool
  | [], [] => true
  | x :: xs, y :: ys => node_beq x y && node_list_beq xs ys
  | _, _ => false
end

/- Pre-order traversal: a query pattern of the form (kind) matches every
node of that kind in the subtree, visited parent-first. -/
mutual
def Node.preorder : Node → List Node
  | .mk k nm f sb eb sp ep tx cs =>
    .mk k nm f sb eb sp ep tx cs :: preorder_list cs
def preorder_list : List Node → List Node
  | [] => []
  | c :: cs => c.preorder ++ preorder_list cs
end

/-- All nodes of the given kinds in query order (models a tree-sitter query
made of plain node-kind patterns run over the whole tree). -/
def collect_kinds (kinds : List String) (t : Node) : List Node :=
  t.preorder.filter fun n => kinds.contains n.kind

/-- Rust Node::child_by_field_name. -/
def child_by_field (n : Node) (f : String) : Option Node :=
  n.children.find? fun c => c.fieldName == some f

/-- children().find(|c| c.kind() == k), the common name-node idiom. -/
def first_child_of_kind (n : Node) (k : String) : Option Node :=
  n.children.find? fun c => c.kind == k

/-- children().any(|c| !c.is_named() && c.utf8_text(..) == Some(t)). -/
def has_unnamed_child_text (n : Node) (t : String) : Bool :=
  n.children.any fun c => !c.named && c.text == t

/-- Rust Node::named_children. -/
def named_children (n : Node) : List Node :=
  n.children.filter fun c => c.named

/-- Rust Node::named_child(i). -/
def named_child (n : Node) (i : Nat) : Option Node :=
  (named_children n).get? i

/-- parser::node_range: the LSP range of a node from its point extents. -/
def node_range (n : Node) : Range :=
  ⟨n.startPos, n.endPos⟩

/-- The parent of a node inside a tree (tree-sitter Node::parent). -/
def parent_of (root tgt : Node) : Option Node :=
  root.preorder.find? fun p => p.children.any fun c => node_beq c tgt

/-! ## Definition extraction (src/extract.rs) -/

/- extract.rs find_identifier_name: a Vec-stack DFS over the subtree for a
stringidentifier or numberidentifier leaf.  A Vec stack pops children
last-first, so the recursion tries later children before earlier ones. -/
mutual
def find_identifier_name : Node → Option String
  | .mk k _ _ _ _ _ _ tx cs =>
    if k == "stringidentifier" || k == "numberidentifier" then some tx
    else find_identifier_name_rev cs
def find_identifier_name_rev : List Node → Option String
  | [] => none
  | c :: cs =>
    match find_identifier_name_rev cs with
    | some r => some r
    | none => find_identifier_name c
end

/-- Strip one matching pair of wrapping quote characters. -/
def strip_edge (q : Char) (s : String) : Option String :=
  match s.data with
  | [] => none
  | c :: rest =>
    if c == q then
      if rest.getLast? == some q then some (String.mk rest.dropLast) else none
    else none

/-- The quote-stripping step of extract.rs extract_string_literal: double
quotes first, else single quotes; none when the text is not quoted. -/
def strip_quotes (tx : String) : Option String :=
  (strip_edge (Char.ofNat 34) tx).orElse fun _ => strip_edge (Char.ofNat 39) tx

/- extract.rs extract_string_literal: Vec-stack DFS for a string leaf; once
one is found its (possibly failing) quote-strip result is returned. -/
mutual
def extract_string_aux : Node → Option (Option String)
  | .mk k _ _ _ _ _ _ tx cs =>
    if k == "string" then some (strip_quotes tx)
    else extract_string_rev cs
def extract_string_rev : List Node → Option (Option String)
  | [] => none
  | c :: cs =>
    match extract_string_rev cs with
    | some r => some r
    | none => extract_string_aux c
end

def extract_string_literal (n : Node) : Option String :=
  (extract_string_aux n).bind id

/-- The parameter kind determined by the child node kind in
extract.rs extract_one_param. -/
def param_kind_of (k : String) : ParamKind :=
  if k == "numeric_parameter" then .Numeric
  else if k == "string_parameter" then .String
  else if k == "string_array_parameter" || k == "stringarray" then .StringArray
  else .NumericArray

def typed_param_kinds : List String :=
  ["numeric_parameter", "string_parameter", "string_array_parameter",
   "stringarray", "number_array_parameter", "numberarray"]

/-- extract.rs extract_one_param: the first named child of a typed parameter
kind decides; & as an anonymous child marks pass-by-reference. -/
def extract_one_param (pn : Node) (is_optional : Bool) : Option ParamInfo :=
  let is_reference := has_unnamed_child_text pn "&"
  match (named_children pn).find? fun c => typed_param_kinds.contains c.kind with
  | none => none
  | some child =>
    (find_identifier_name child).map fun nm =>
      ⟨nm, param_kind_of child.kind, is_optional, is_reference⟩

/-- extract.rs extract_params over a parameter_list node. -/
def extract_params (pl : Node) : List ParamInfo :=
  pl.children.filterMap fun child =>
    if child.kind == "required_parameter" || child.kind == "optional_parameter" then
      match child.children.find? fun c => c.kind == "parameter" with
      | none => none
      | some p => extract_one_param p (child.kind == "optional_parameter")
    else none

/-- extract.rs has_substitution: any param_substitution among the named
children of a parameter inside the list. -/
def has_substitution (pl : Node) : Bool :=
  pl.children.any fun child =>
    (child.kind == "required_parameter" || child.kind == "optional_parameter") &&
      child.children.any fun g =>
        g.kind == "parameter" &&
          (named_children g).any fun pc => pc.kind == "param_substitution"

/-- extract.rs extract_one_def on a def_statement node (doc comments are
elided: no checked claim observes the documentation fields). -/
def extract_one_def (def_node : Node) : Option FunctionDef :=
  let is_library := def_node.children.any fun c => c.kind == "library_keyword"
  match def_node.children.find? fun c =>
      c.kind == "string_function_definition" ||
        c.kind == "numeric_function_definition" with
  | none => none
  | some func_def =>
    match func_def.children.find? fun c => c.kind == "function_name" with
    | none => none
    | some name_node =>
      let param_list := func_def.children.find? fun c => c.kind == "parameter_list"
      some
        { name := name_node.text
          range := node_range def_node
          selection_range := node_range name_node
          is_library := is_library
          is_import_only := false
          params := (param_list.map extract_params).getD []
          has_param_substitution :=
            match param_list with
            | some pl => has_substitution pl
            | none => false }

/-- extract.rs collect_library_imports: one import-only FunctionDef per
function_name inside a library_function_list child. -/
def collect_library_imports (lib_node : Node) : List FunctionDef :=
  lib_node.children.flatMap fun child =>
    if child.kind == "library_function_list" then
      child.children.filterMap fun g =>
        if g.kind == "function_name" then
          some
            { name := g.text
              range := node_range lib_node
              selection_range := node_range g
              is_library := true
              is_import_only := true
              params := []
              has_param_substitution := false }
        else none
    else []

/- extract.rs collect_def_statements: recursion stops at def_statement and
library_statement nodes. -/
mutual
def collect_def_statements : Node → List FunctionDef
  | .mk k nm f sb eb sp ep tx cs =>
    if k == "def_statement" then
      match extract_one_def (.mk k nm f sb eb sp ep tx cs) with
      | some d => [d]
      | none => []
    else if k == "library_statement" then
      collect_library_imports (.mk k nm f sb eb sp ep tx cs)
    else collect_def_list cs
def collect_def_list : List Node → List FunctionDef
  | [] => []
  | c :: cs => collect_def_statements c ++ collect_def_list cs
end

/-- extract.rs extract_definitions. -/
def extract_definitions (t : Node) : List FunctionDef :=
  collect_def_statements t

/-! ## Library links (src/extract.rs extract_library_links) -/

/-- The link entries contributed by one library_statement node: the
lowercased imported names paired with the statement path, normalized. -/
def lib_stmt_links (n : Node) : List (String × String) :=
  match child_by_field n "path" with
  | none => []
  | some path_node =>
    match extract_string_literal path_node with
    | none => []
    | some raw =>
      n.children.flatMap fun child =>
        if child.kind == "library_function_list" then
          child.children.filterMap fun g =>
            if g.kind == "function_name" then
              some (to_ascii_lowercase g.text, normalize_library_path raw)
            else none
        else []

mutual
def collect_library_links : Node → List (String × String)
  | .mk k nm f sb eb sp ep tx cs =>
    if k == "library_statement" then
      lib_stmt_links (.mk k nm f sb eb sp ep tx cs)
    else collect_links_list cs
def collect_links_list : List Node → List (String × String)
  | [] => []
  | c :: cs => collect_library_links c ++ collect_links_list cs
end

/-- extract.rs extract_library_links, as the list of HashMap insertions in
document order. -/
def extract_library_links (t : Node) : List (String × String) :=
  collect_library_links t

/-- Reading the HashMap built from sequential inserts: the last insertion
for a key wins. -/
def links_get (links : List (String × String)) (k : String) : Option String :=
  (links.reverse.find? fun q => q.1 == k).map fun q => q.2

/-- A library_statement reachable by collect_library_links: no proper
ancestor on the path is itself a library_statement (the traversal stops
there). -/
inductive LibStmtAt : Node → Node → Prop where
  | refl (n : Node) : LibStmtAt n n
  | step (n c t : Node) : n.kind ≠ "library_statement" → c ∈ n.children →
      LibStmtAt c t → LibStmtAt n t

theorem mem_collect_links_list (l : List Node) (x : String × String) :
    x ∈ collect_links_list l ↔ ∃ c ∈ l, x ∈ collect_library_links c := by
  induction l with
  | nil => simp [collect_links_list]
  | cons c cs ih =>
    simp only [collect_links_list, List.mem_append, ih, List.mem_cons]
    constructor
    · rintro (h | ⟨c', hc', hm⟩)
      · exact ⟨c, Or.inl rfl, h⟩
      · exact ⟨c', Or.inr hc', hm⟩
    · rintro ⟨c', hc' | hc', hm⟩
      · subst hc'
        exact Or.inl hm
      · exact Or.inr ⟨c', hc', hm⟩

mutual
theorem links_sound : ∀ (n : Node) (f p : String),
    (f, p) ∈ collect_library_links n →
    ∃ lib, LibStmtAt n lib ∧ lib.kind = "library_statement" ∧
      (f, p) ∈ lib_stmt_links lib
  | .mk k nm fd sb eb sp ep tx cs, f, p, h => by
    simp only [collect_library_links] at h
    cases hk : k == "library_statement" with
    | true =>
      rw [hk, if_pos rfl] at h
      exact ⟨_, .refl _, beq_iff_eq.mp hk, h⟩
    | false =>
      rw [hk, if_neg (by simp)] at h
      obtain ⟨c, hc, lib, hat, hlk, hm⟩ := links_sound_list cs f p h
      exact ⟨lib, .step _ c lib (beq_eq_false_iff_ne.mp hk) hc hat, hlk, hm⟩
theorem links_sound_list : ∀ (l : List Node) (f p : String),
    (f, p) ∈ collect_links_list l →
    ∃ c ∈ l, ∃ lib, LibStmtAt c lib ∧ lib.kind = "library_statement" ∧
      (f, p) ∈ lib_stmt_links lib
  | [], _, _, h => by simp [collect_links_list] at h
  | c :: cs, f, p, h => by
    simp only [collect_links_list] at h
    rcases List.mem_append.mp h with h1 | h2
    · obtain ⟨lib, hat, hk, hm⟩ := links_sound c f p h1
      exact ⟨c, List.mem_cons_self c cs, lib, hat, hk, hm⟩
    · obtain ⟨c', hc', rest⟩ := links_sound_list cs f p h2
      exact ⟨c', List.mem_cons_of_mem c hc', rest⟩
end

theorem links_complete (n lib : Node) (h : LibStmtAt n lib)
    (hk : lib.kind = "library_statement") (f p : String)
    (hm : (f, p) ∈ lib_stmt_links lib) : (f, p) ∈ collect_library_links n := by
  induction h with
  | refl m =>
    cases m with
    | mk k nm fd sb eb sp ep tx cs =>
      have hk' : k = "library_statement" := hk
      simp only [collect_library_links]
      rw [if_pos (beq_iff_eq.mpr hk')]
      exact hm
  | step n c t hne hc ht ih =>
    cases n with
    | mk k nm fd sb eb sp ep tx cs =>
      have hne' : k ≠ "library_statement" := hne
      simp only [collect_library_links]
      rw [if_neg fun hh => hne' (beq_iff_eq.mp hh)]
      exact (mem_collect_links_list cs _).mpr ⟨c, hc, ih hk hm⟩

theorem mem_lib_stmt_links (lib : Node) (f p : String) :
    (f, p) ∈ lib_stmt_links lib ↔
      ∃ path_node raw, child_by_field lib "path" = some path_node ∧
        extract_string_literal path_node = some raw ∧
        p = normalize_library_path raw ∧
        ∃ flist ∈ lib.children, flist.kind = "library_function_list" ∧
          ∃ g ∈ flist.children, g.kind = "function_name" ∧
            f = to_ascii_lowercase g.text := by
  cases hpath : child_by_field lib "path" with
  | none => simp [lib_stmt_links, hpath]
  | some pn =>
    cases hraw : extract_string_literal pn with
    | none => simp [lib_stmt_links, hpath, hraw]
    | some raw =>
      simp only [lib_stmt_links, hpath, hraw]
      constructor
      · intro hm
        rcases List.mem_flatMap.mp hm with ⟨flist, hfl, hin⟩
        cases hfk : flist.kind == "library_function_list" with
        | false =>
          rw [hfk, if_neg (by simp)] at hin
          cases hin
        | true =>
          rw [hfk, if_pos rfl] at hin
          rcases List.mem_filterMap.mp hin with ⟨g, hg, hsome⟩
          cases hgk : g.kind == "function_name" with
          | false =>
            rw [hgk, if_neg (by simp)] at hsome
            cases hsome
          | true =>
            rw [hgk, if_pos rfl] at hsome
            simp only [Option.some.injEq, Prod.mk.injEq] at hsome
            obtain ⟨hf, hp⟩ := hsome
            exact ⟨pn, raw, rfl, hraw, hp.symm, flist, hfl, beq_iff_eq.mp hfk,
              g, hg, beq_iff_eq.mp hgk, hf.symm⟩
      · rintro ⟨pn', raw', hpath', hraw', hp, flist, hfl, hflk, g, hg, hgk, hf⟩
        injection hpath' with he
        subst he
        rw [hraw] at hraw'
        injection hraw' with he2
        subst he2
        refine List.mem_flatMap.mpr ⟨flist, hfl, ?_⟩
        rw [if_pos (beq_iff_eq.mpr hflk)]
        refine List.mem_filterMap.mpr ⟨g, hg, ?_⟩
        rw [if_pos (beq_iff_eq.mpr hgk), hf, hp]

/-- The C9 claim-side normalization, following the claim text: backslashes to
forward slashes, ASCII lowercase, and the file extension stripped (the final
dot-suffix of the last path component, whatever it is). -/
def strip_after_dot : List Char → Option (List Char)
  | [] => none
  | c :: rest =>
    if c == '.' then some rest
    else if c == '/' then none
    else strip_after_dot rest

def c9_claim_normalize (raw : String) : String :=
  let s := to_ascii_lowercase (String.mk (raw.data.map fun c => if c == '\\' then '/' else c))
  match strip_after_dot s.data.reverse with
  | some kept => String.mk kept.reverse
  | none => s

/-- The amended normalization: only a .brs, .wbs or .dll extension is
stripped. -/
def c9_amended_normalize (raw : String) : String :=
  let s := to_ascii_lowercase (String.mk (raw.data.map fun c => if c == '\\' then '/' else c))
  if str_ends s ".brs" ∨ str_ends s ".wbs" ∨ str_ends s ".dll" then
    String.mk (s.data.take (s.data.length - 4))
  else s

theorem normalize_eq_amended (raw : String) :
    normalize_library_path raw = c9_amended_normalize raw := by
  unfold normalize_library_path c9_amended_normalize strip_suffix_str
  set s := to_ascii_lowercase
    (String.mk (raw.data.map fun c => if c == '\\' then '/' else c)) with hs
  have l1 : (".brs" : String).data.length = 4 := rfl
  have l2 : (".wbs" : String).data.length = 4 := rfl
  have l3 : (".dll" : String).data.length = 4 := rfl
  by_cases h1 : str_ends s ".brs"
  · simp [h1, Option.orElse, l1]
  · by_cases h2 : str_ends s ".wbs"
    · simp [h1, h2, Option.orElse, l2]
    · by_cases h3 : str_ends s ".dll"
      · simp [h1, h2, h3, Option.orElse, l3]
      · simp [h1, h2, h3, Option.orElse]

def c9_lib_stmt (path fn : String) : Node :=
  Node.mk "library_statement" true none 0 0 ⟨0, 0⟩ ⟨0, 0⟩ "" [
    Node.mk "string" true (some "path") 0 0 ⟨0, 0⟩ ⟨0, 0⟩ ("\x22" ++ path ++ "\x22") [],
    Node.mk "library_function_list" true none 0 0 ⟨0, 0⟩ ⟨0, 0⟩ "" [
      Node.mk "function_name" true none 0 0 ⟨0, 0⟩ ⟨0, 0⟩ fn []]]

def c9_tree : Node :=
  Node.mk "source_file" true none 0 0 ⟨0, 0⟩ ⟨0, 0⟩ "" [
    c9_lib_stmt "first" "fnCalc", c9_lib_stmt "second" "fnCalc"]

/-- C9 counterexample: (i) normalize_library_path does not strip an arbitrary
file extension, only .brs/.wbs/.dll — on custlib.dat it keeps .dat while the
claimed normalization strips it; (ii) when two library statements import the
same function from different paths, the extracted map cannot hold both: the
later insertion wins, so the function is not mapped to the first statement's
path even though that statement imports it. -/
theorem c9_claim_fails :
    normalize_library_path "custlib.dat" = "custlib.dat" ∧
    c9_claim_normalize "custlib.dat" = "custlib" ∧
    extract_library_links c9_tree = [("fncalc", "first"), ("fncalc", "second")] ∧
    links_get (extract_library_links c9_tree) "fncalc" = some "second" := by
  refine ⟨by decide, by decide, by decide, by decide⟩

theorem links_get_last (links : List (String × String)) (k : String) :
    links_get links k =
      ((links.filter fun q => q.1 == k).getLast?).map fun q => q.2 := by
  unfold links_get
  induction links using List.reverseRecOn with
  | nil => rfl
  | append_singleton l a ih =>
    cases ha : (a.1 == k)
    · simpa [List.reverse_append, List.find?_cons, ha, List.filter_append,
        List.filter_cons] using ih
    · simp [List.reverse_append, List.find?_cons, ha, List.filter_append,
        List.filter_cons, List.getLast?_concat]

/-- C9 (amended): the normalized library path replaces backslashes by forward
slashes, ASCII-lowercases, and strips a .brs, .wbs or .dll extension (no
other extension); extract_library_links records one entry per imported
function of each reachable library_statement with a path, mapping the
lowercased function name to that statement's normalized path; the resulting
map returns the last such entry in document order when several statements
bring in the same name. -/
theorem library_links_characterization :
    (∀ raw, normalize_library_path raw = c9_amended_normalize raw) ∧
    (∀ (t : Node) (f p : String),
      (f, p) ∈ extract_library_links t ↔
        ∃ lib, LibStmtAt t lib ∧ lib.kind = "library_statement" ∧
          ∃ path_node raw, child_by_field lib "path" = some path_node ∧
            extract_string_literal path_node = some raw ∧
            p = normalize_library_path raw ∧
            ∃ flist ∈ lib.children, flist.kind = "library_function_list" ∧
              ∃ g ∈ flist.children, g.kind = "function_name" ∧
                f = to_ascii_lowercase g.text) ∧
    (∀ (links : List (String × String)) (k : String),
      links_get links k =
        ((links.filter fun q => q.1 == k).getLast?).map fun q => q.2) := by
  refine ⟨normalize_eq_amended, fun t f p => ?_, links_get_last⟩
  constructor
  · intro h
    obtain ⟨lib, hat, hk, hm⟩ := links_sound t f p h
    exact ⟨lib, hat, hk, (mem_lib_stmt_links lib f p).mp hm⟩
  · rintro ⟨lib, hat, hk, inner⟩
    exact links_complete t lib hat hk f p ((mem_lib_stmt_links lib f p).mpr inner)

/-! ## C10: LIBRARY imports count as local definitions -/

/-- A statement reachable by collect_def_statements: no proper ancestor on
the path is a def_statement or a library_statement. -/
inductive DefStmtAt : Node → Node → Prop where
  | refl (n : Node) : DefStmtAt n n
  | step (n c t : Node) : n.kind ≠ "def_statement" → n.kind ≠ "library_statement" →
      c ∈ n.children → DefStmtAt c t → DefStmtAt n t

theorem mem_collect_def_list (l : List Node) (x : FunctionDef) :
    x ∈ collect_def_list l ↔ ∃ c ∈ l, x ∈ collect_def_statements c := by
  induction l with
  | nil => simp [collect_def_list]
  | cons c cs ih =>
    simp only [collect_def_list, List.mem_append, ih, List.mem_cons]
    constructor
    · rintro (h | ⟨c', hc', hm⟩)
      · exact ⟨c, Or.inl rfl, h⟩
      · exact ⟨c', Or.inr hc', hm⟩
    · rintro ⟨c', hc' | hc', hm⟩
      · subst hc'
        exact Or.inl hm
      · exact Or.inr ⟨c', hc', hm⟩

theorem import_in_extract (t lib : Node) (h : DefStmtAt t lib)
    (hk : lib.kind = "library_statement") (d : FunctionDef)
    (hd : d ∈ collect_library_imports lib) : d ∈ extract_definitions t := by
  unfold extract_definitions
  induction h with
  | refl m =>
    cases m with
    | mk k nm fd sb eb sp ep tx cs =>
      have hk' : k = "library_statement" := hk
      subst hk'
      simp only [collect_def_statements]
      rw [if_neg (by decide), if_pos (by decide)]
      exact hd
  | step n c t hnd hnl hc ht ih =>
    cases n with
    | mk k nm fd sb eb sp ep tx cs =>
      have hnd' : k ≠ "def_statement" := hnd
      have hnl' : k ≠ "library_statement" := hnl
      simp only [collect_def_statements]
      rw [if_neg fun hh => hnd' (beq_iff_eq.mp hh),
        if_neg fun hh => hnl' (beq_iff_eq.mp hh)]
      exact (mem_collect_def_list cs _).mpr ⟨c, hc, ih hk hd⟩

/-! ## Undefined-function diagnostics (src/diagnostics.rs check_undefined_functions) -/

def user_call_kinds : List String :=
  ["numeric_user_function", "string_user_function"]

/-- The lowercased names of the definitions extracted from this file (the
local_names HashSet). -/
def local_names_of (t : Node) : List String :=
  (extract_definitions t).map fun d => to_ascii_lowercase d.name

/-- The loop body of check_undefined_functions for one user-function call
node. -/
def undefined_diag_for (local_names : List String) (idx : WorkspaceIndex)
    (call : Node) : Option Diagnostic :=
  match first_child_of_kind call "function_name" with
  | none => none
  | some nn =>
    let key := to_ascii_lowercase nn.text
    if local_names.contains key || !(idx.lookup key).isEmpty then none
    else
      some ⟨node_range nn, some .warning, some "undefined-function",
        "Function " ++ sq ++ nn.text ++ sq ++ " is not defined in the workspace"⟩

/-- diagnostics.rs check_undefined_functions. -/
def check_undefined_functions (t : Node) (idx : WorkspaceIndex) : List Diagnostic :=
  (collect_kinds user_call_kinds t).filterMap
    (undefined_diag_for (local_names_of t) idx)

/-- C10: a function name imported by a reachable LIBRARY statement is in the
file's local names, so check_undefined_functions never reports a call to it,
whatever the workspace index (including the empty one). -/
theorem library_import_never_undefined (t lib flist g : Node) (idx : WorkspaceIndex)
    (h1 : DefStmtAt t lib) (h2 : lib.kind = "library_statement")
    (h3 : flist ∈ lib.children) (h4 : flist.kind = "library_function_list")
    (h5 : g ∈ flist.children) (h6 : g.kind = "function_name") :
    (check_undefined_functions t idx =
      (collect_kinds user_call_kinds t).filterMap
        (undefined_diag_for (local_names_of t) idx)) ∧
    ∀ call nn : Node, first_child_of_kind call "function_name" = some nn →
      to_ascii_lowercase nn.text = to_ascii_lowercase g.text →
      undefined_diag_for (local_names_of t) idx call = none := by
  refine ⟨rfl, fun call nn hnn hname => ?_⟩
  have himp : (⟨g.text, node_range lib, node_range g, true, true, [], false⟩ :
      FunctionDef) ∈ collect_library_imports lib := by
    refine List.mem_flatMap.mpr ⟨flist, h3, ?_⟩
    rw [if_pos (beq_iff_eq.mpr h4)]
    exact List.mem_filterMap.mpr ⟨g, h5, by rw [if_pos (beq_iff_eq.mpr h6)]⟩
  have hloc : to_ascii_lowercase g.text ∈ local_names_of t := by
    unfold local_names_of
    exact List.mem_map.mpr ⟨_, import_in_extract t lib h1 h2 _ himp, rfl⟩
  simp only [undefined_diag_for, hnn, hname]
  have hcont : List.contains (local_names_of t) (to_ascii_lowercase g.text) = true :=
    List.elem_iff.mpr hloc
  rw [hcont]
  rfl

def c10_lib : Node :=
  Node.mk "library_statement" true none 0 20 ⟨0, 0⟩ ⟨0, 20⟩ "" [
    Node.mk "library_function_list" true none 8 20 ⟨0, 8⟩ ⟨0, 20⟩ "" [
      Node.mk "function_name" true none 8 13 ⟨0, 8⟩ ⟨0, 13⟩ "fnRTF" []]]

def c10_call : Node :=
  Node.mk "numeric_user_function" true none 30 40 ⟨1, 6⟩ ⟨1, 16⟩ "FNRTF(1)" [
    Node.mk "function_name" true none 30 35 ⟨1, 6⟩ ⟨1, 11⟩ "FNRTF" []]

def c10_tree : Node :=
  Node.mk "source_file" true none 0 41 ⟨0, 0⟩ ⟨2, 0⟩ "" [
    c10_lib,
    Node.mk "line" true none 24 41 ⟨1, 0⟩ ⟨2, 0⟩ "" [c10_call]]

/-- Witness for C10 at a concrete tree: a LIBRARY import of fnRTF suppresses
the undefined-function diagnostic for a call to FNRTF even against the empty
index. -/
theorem library_import_never_undefined_witness :
    undefined_diag_for (local_names_of c10_tree) WorkspaceIndex.new c10_call = none := by
  have h := library_import_never_undefined c10_tree c10_lib
    (Node.mk "library_function_list" true none 8 20 ⟨0, 8⟩ ⟨0, 20⟩ "" [
      Node.mk "function_name" true none 8 13 ⟨0, 8⟩ ⟨0, 13⟩ "fnRTF" []])
    (Node.mk "function_name" true none 8 13 ⟨0, 8⟩ ⟨0, 13⟩ "fnRTF" [])
    WorkspaceIndex.new
    (DefStmtAt.step c10_tree c10_lib c10_lib (by decide) (by decide)
      (List.mem_cons_self _ _) (DefStmtAt.refl c10_lib))
    rfl (List.mem_cons_self _ _) rfl (List.mem_cons_self _ _) rfl
  exact h.2 c10_call
    (Node.mk "function_name" true none 30 35 ⟨1, 6⟩ ⟨1, 11⟩ "FNRTF" []) rfl (by decide)

/-! ## C6: characterization of check_undefined_functions -/

theorem undefined_diag_for_eq_some (ln : List String) (idx : WorkspaceIndex)
    (call : Node) (d : Diagnostic) :
    undefined_diag_for ln idx call = some d ↔
      ∃ nn, first_child_of_kind call "function_name" = some nn ∧
        to_ascii_lowercase nn.text ∉ ln ∧
        idx.lookup (to_ascii_lowercase nn.text) = [] ∧
        d = ⟨node_range nn, some .warning, some "undefined-function",
          "Function " ++ sq ++ nn.text ++ sq ++ " is not defined in the workspace"⟩ := by
  cases hnn : first_child_of_kind call "function_name" with
  | none => simp [undefined_diag_for, hnn]
  | some nn =>
    simp only [undefined_diag_for, hnn]
    cases hc : ln.contains (to_ascii_lowercase nn.text) with
    | true =>
      simp only [Bool.true_or, if_pos rfl]
      constructor
      · intro h
        cases h
      · rintro ⟨nn', hnn', hmem, _, _⟩
        injection hnn' with he
        subst he
        exact absurd (List.elem_iff.mp hc) hmem
    | false =>
      cases he : (idx.lookup (to_ascii_lowercase nn.text)).isEmpty with
      | false =>
        simp only [Bool.false_or, Bool.not_false, if_pos rfl]
        constructor
        · intro h
          cases h
        · rintro ⟨nn', hnn', _, hlook, _⟩
          injection hnn' with heq
          subst heq
          rw [hlook] at he
          cases he
      | true =>
        simp only [Bool.false_or, Bool.not_true]
        rw [if_neg (by simp)]
        constructor
        · intro h
          injection h with hd
          refine ⟨nn, rfl, ?_, ?_, hd.symm⟩
          · intro hmem
            have hct : ln.contains (to_ascii_lowercase nn.text) = true :=
              List.elem_iff.mpr hmem
            rw [hct] at hc
            cases hc
          · exact List.isEmpty_iff.mp he
        · rintro ⟨nn', hnn', _, _, hd⟩
          injection hnn' with heq
          subst heq
          rw [hd]

/-- C6: check_undefined_functions emits a diagnostic exactly for the
user-function calls whose lowercased name is neither among the lowercased
names of the file's extracted definitions nor a key with entries in the
workspace index; the diagnostic is a Warning with code undefined-function,
the message names the function, and it sits on the call's function-name
token. -/
theorem undefined_function_characterization (t : Node) (idx : WorkspaceIndex)
    (d : Diagnostic) :
    d ∈ check_undefined_functions t idx ↔
      ∃ call ∈ collect_kinds user_call_kinds t, ∃ nn,
        first_child_of_kind call "function_name" = some nn ∧
        to_ascii_lowercase nn.text ∉ local_names_of t ∧
        idx.lookup (to_ascii_lowercase nn.text) = [] ∧
        d = ⟨node_range nn, some .warning, some "undefined-function",
          "Function " ++ sq ++ nn.text ++ sq ++ " is not defined in the workspace"⟩ := by
  unfold check_undefined_functions
  rw [List.mem_filterMap]
  constructor
  · rintro ⟨call, hcall, hsome⟩
    exact ⟨call, hcall, (undefined_diag_for_eq_some _ idx call d).mp hsome⟩
  · rintro ⟨call, hcall, hrest⟩
    exact ⟨call, hcall, (undefined_diag_for_eq_some _ idx call d).mpr hrest⟩

/-! ## C5: the missing-FNEND stream (diagnostics.rs check_missing_fnend) -/

/-- The Rust code names this enum Entry with variants Def and Close. -/
inductive FnEntry where
  | def_entry (range : Range) (name : String)
  | close_entry
deriving DecidableEq, Repr

/-- Whether a child is one of the two function-definition wrappers. -/
def fn_def_kinds (c : Node) : Bool :=
  c.kind == "string_function_definition" || c.kind == "numeric_function_definition"

/-- diagnostics.rs function_name_node: the first function_name grandchild
under a function-definition child. -/
def function_name_node (d : Node) : Option Node :=
  (d.children.filter fn_def_kinds).findSome? fun c =>
    c.children.find? fun g => g.kind == "function_name"

/-- diagnostics.rs is_inline_def: an assignment_op grandchild marks an inline
DEF. -/
def is_inline_def (d : Node) : Bool :=
  d.children.any fun c => fn_def_kinds c && c.children.any fun g =>
    g.kind == "assignment_op"

def missing_fnend_msg (name : String) : String :=
  "Function " ++ sq ++ name ++ sq ++ " is missing FNEND"

def fnend_query_kinds : List String :=
  ["def_statement", "fnend_statement", "end_def_statement"]

/-- The event a query capture contributes: inline defs auto-close, other
defs open, fnend and end def close; all at the node's start byte. -/
def fnend_entry (n : Node) : Nat × FnEntry :=
  if n.kind == "def_statement" then
    if is_inline_def n then (n.startByte, .close_entry)
    else (n.startByte,
      .def_entry (node_range n) (((function_name_node n).map Node.text).getD ""))
  else (n.startByte, .close_entry)

def collect_fnend_entries (t : Node) : List (Nat × FnEntry) :=
  (collect_kinds fnend_query_kinds t).map fnend_entry

/-- The fold over byte-ordered events: at most one open def at a time; a def
arriving while one is open flushes the open def as an Error; a close clears
it; an open def at end of stream is flushed the same way. -/
def flush_events : Option (Range × String) → List (Nat × FnEntry) → List Diagnostic
  | some (r, nm), [] => [⟨r, some .error, none, missing_fnend_msg nm⟩]
  | none, [] => []
  | some (pr, pn), (_, .def_entry r nm) :: rest =>
    ⟨pr, some .error, none, missing_fnend_msg pn⟩ :: flush_events (some (r, nm)) rest
  | none, (_, .def_entry r nm) :: rest => flush_events (some (r, nm)) rest
  | _, (_, .close_entry) :: rest => flush_events none rest

/-- diagnostics.rs check_missing_fnend. -/
def check_missing_fnend (t : Node) : List Diagnostic :=
  flush_events none (sort_by_key (fun e => e.1) (collect_fnend_entries t))

/-- C5: check_missing_fnend processes the def_statement / fnend_statement /
end_def_statement events in ascending start-byte order (a permutation of the
collected events), with inline defs contributing Close events, non-inline
defs contributing Def events carrying their range and name, and the
one-open-def fold emitting the missing-FNEND Error on the open def's range
when another def arrives or the stream ends. -/
theorem missing_fnend_stream (t : Node) :
    ∃ es : List (Nat × FnEntry),
      check_missing_fnend t = flush_events none es ∧
      es.Pairwise (fun a b => a.1 ≤ b.1) ∧
      List.Perm es (collect_fnend_entries t) ∧
      (∀ n ∈ collect_kinds fnend_query_kinds t,
        (n.kind = "def_statement" → is_inline_def n = true →
          fnend_entry n = (n.startByte, .close_entry)) ∧
        (n.kind = "def_statement" → is_inline_def n = false →
          fnend_entry n = (n.startByte, .def_entry (node_range n)
            (((function_name_node n).map Node.text).getD ""))) ∧
        (n.kind ≠ "def_statement" → fnend_entry n = (n.startByte, .close_entry))) ∧
      (∀ b r nm rest pr pn,
        flush_events (some (pr, pn)) ((b, FnEntry.def_entry r nm) :: rest) =
          ⟨pr, some .error, none, missing_fnend_msg pn⟩ ::
            flush_events (some (r, nm)) rest) ∧
      (∀ b rest od, flush_events od ((b, FnEntry.close_entry) :: rest) =
        flush_events none rest) ∧
      (∀ pr pn, flush_events (some (pr, pn)) [] =
        [⟨pr, some .error, none, missing_fnend_msg pn⟩]) := by
  refine ⟨sort_by_key (fun e => e.1) (collect_fnend_entries t), rfl,
    pairwise_sort_by_key _ _, sort_by_key_perm _ _, ?_, fun b r nm rest pr pn => rfl,
    fun b rest od => ?_, fun pr pn => rfl⟩
  · intro n _
    refine ⟨fun hk hi => ?_, fun hk hi => ?_, fun hk => ?_⟩
    · unfold fnend_entry
      rw [if_pos (beq_iff_eq.mpr hk), if_pos hi]
    · unfold fnend_entry
      rw [if_pos (beq_iff_eq.mpr hk), if_neg (by simp [hi])]
    · unfold fnend_entry
      rw [if_neg fun hh => hk (beq_iff_eq.mp hh)]
  · cases od with
    | none => rfl
    | some pr => rfl

/-! ## Arity and type checks (diagnostics.rs check_parameter_count) -/

def system_call_kinds : List String :=
  ["numeric_system_function", "string_system_function"]

/-- diagnostics.rs count_arg_positions: commas + 1, or 0 for empty parens. -/
def count_arg_positions (args : Node) : Nat :=
  let st := args.children.foldl
    (fun (st : Nat × Bool) c =>
      if c.kind == "argument" then (st.1, true)
      else if !c.named && c.text == "," then (st.1 + 1, st.2)
      else st)
    (0, false)
  if st.1 == 0 && !st.2 then 0 else st.1 + 1

/-- diagnostics.rs collect_argument_nodes: argument nodes paired with their
positional index; empty positions yield (index, none).  (The final
early-return for empty parens in the Rust code returns the same empty list
either way.) -/
def collect_argument_nodes (args : Node) : List (Nat × Option Node) :=
  let st := args.children.foldl
    (fun (st : List (Nat × Option Node) × Nat × Bool) c =>
      if c.kind == "argument" then (st.1 ++ [(st.2.1, some c)], st.2.1, true)
      else if !c.named && c.text == "," then
        let need :=
          match st.1.getLast? with
          | none => true
          | some q => !(q.1 == st.2.1)
        ((if need then st.1 ++ [(st.2.1, none)] else st.1), st.2.1 + 1, st.2.2)
      else st)
    ([], 0, false)
  if decide (0 < st.2.1) &&
      (match st.1.getLast? with
       | none => true
       | some q => !(q.1 == st.2.1)) then
    st.1 ++ [(st.2.1, none)]
  else st.1

/-- diagnostics.rs argument_type: argument → expression → concrete subtype. -/
def argument_type (arg : Node) : Option ParamKind :=
  match named_child arg 0 with
  | none => none
  | some expr =>
    if expr.kind == "expression" then
      match named_child expr 0 with
      | none => none
      | some concrete =>
        if concrete.kind == "numeric_expression" then some .Numeric
        else if concrete.kind == "string_expression" then some .String
        else if concrete.kind == "numeric_array_expression" then some .NumericArray
        else if concrete.kind == "string_array_expression" then some .StringArray
        else none
    else none

/-- diagnostics.rs types_compatible: same kind, or a scalar passed for an
array of the same base type. -/
def types_compatible (expected actual : ParamKind) : Bool :=
  if expected == actual then true
  else
    match expected, actual with
    | .NumericArray, .Numeric => true
    | .StringArray, .String => true
    | _, _ => false

def format_param_kind : ParamKind → String
  | .Numeric => "numeric"
  | .String => "string"
  | .NumericArray => "numeric array"
  | .StringArray => "string array"

/-! ## The builtin overload table (src/builtins.rs)
The table itself is a JSON asset outside the sources, so the functions below
take it as a parameter. -/

structure BuiltinParam where
  name : String
deriving DecidableEq, Repr

structure BuiltinFunction where
  name : String
  params : List BuiltinParam
deriving DecidableEq, Repr

/-- Rust usize::MAX, the unlimited total used for varargs overloads. -/
def usize_max : Nat := 2 ^ 64 - 1

/-- Rust str::trim_start_matches: remove every leading repetition of pat. -/
def strip_lead_all_aux (pat : List Char) : Nat → List Char → List Char
  | 0, l => l
  | fuel + 1, l =>
    if !pat.isEmpty && chars_lead pat l then
      strip_lead_all_aux pat fuel (l.drop pat.length)
    else l

def strip_lead_all (s pat : String) : String :=
  String.mk (strip_lead_all_aux pat.data s.data.length s.data)

/-- builtins.rs BuiltinParam::kind, inferring the expected kind from the
parameter-name spelling. -/
def builtin_param_kind (p : BuiltinParam) : Option ParamKind :=
  if str_begins p.name "\x22" then none
  else
    let stripped := trim_str (String.mk (p.name.data.filter fun c =>
      !(c == '[' || c == ']' || c == '<' || c == '>' || c == '*' || c == '^')))
    let is_mat := str_begins stripped "MAT " || str_begins stripped "mat "
    let is_string := str_ends stripped "$"
    if is_mat then
      if is_string then some .StringArray
      else
        let inner := trim_str (strip_lead_all (strip_lead_all stripped "MAT ") "mat ")
        if str_has (to_ascii_lowercase inner) "numeric" then some .NumericArray
        else none
    else if is_string then some .String
    else
      let lower := to_ascii_lowercase stripped
      if str_has lower "array" || lower == "date" || lower == "argument" then none
      else some .Numeric

/-- builtins.rs lookup keyed by lowercased name (the HashMap groups the JSON
entries by key preserving their order, which is the order-preserving
filter). -/
def builtins_lookup (tbl : List BuiltinFunction) (name : String) : List BuiltinFunction :=
  tbl.filter fun o => to_ascii_lowercase o.name == to_ascii_lowercase name

/-- diagnostics.rs builtin_param_counts: required = non-bracketed parameter
names; total = usize::MAX when the last parameter name is the [...] varargs
marker, else the parameter count. -/
def builtin_param_counts (func : BuiltinFunction) : Nat × Nat :=
  let required := (func.params.filter fun p => !(str_begins p.name "[")).length
  let total :=
    match func.params.getLast? with
    | some p => if p.name == "[...]" then usize_max else func.params.length
    | none => func.params.length
  (required, total)

/-- The count-mismatch message shared by the user and system branches. -/
def expects_msg (fn_name : String) (required total arg_count : Nat) : String :=
  let expected :=
    if required == total then toString required
    else toString required ++ "-" ++ toString total
  "Function " ++ sq ++ fn_name ++ sq ++ " expects " ++ expected ++
    " parameter(s), but " ++ toString arg_count ++ " provided"

def type_mismatch_diag (rng : Range) (expected actual : ParamKind) (pos : Nat) :
    Diagnostic :=
  ⟨rng, some .warning, none,
    "Expected " ++ format_param_kind expected ++ " argument at position " ++
      toString (pos + 1) ++ ", got " ++ format_param_kind actual⟩

/-- The HashMap of local definitions keyed by lowercase name with
or_insert semantics: the first definition with a name wins. -/
def def_map_get (defs : List FunctionDef) (key : String) : Option FunctionDef :=
  defs.find? fun d => to_ascii_lowercase d.name == key

/-- The user branch's per-argument type check. -/
def user_type_diag_at (fdef : FunctionDef) (pa : Nat × Option Node) : Option Diagnostic :=
  match pa.2 with
  | none => none
  | some arg =>
    match fdef.params.get? pa.1 with
    | none => none
    | some param =>
      match argument_type arg with
      | none => none
      | some actual =>
        if types_compatible param.kind actual then none
        else some (type_mismatch_diag (node_range arg) param.kind actual pa.1)

def user_type_diags (fdef : FunctionDef) (args : Node) : List Diagnostic :=
  (collect_argument_nodes args).filterMap (user_type_diag_at fdef)

/-- Whether one overload accepts the observed kind at a position: params
beyond the list or without an inferable kind accept anything. -/
def overload_accepts_at (o : BuiltinFunction) (pos : Nat) (actual : ParamKind) : Bool :=
  match o.params.get? pos with
  | some p =>
    match builtin_param_kind p with
    | some expected => types_compatible expected actual
    | none => true
  | none => true

/-- The system branch's per-argument type check against the count-accepting
overloads; the reported expected kind comes from the first of them. -/
def system_type_diag_at (matching : List BuiltinFunction) (pa : Nat × Option Node) :
    Option Diagnostic :=
  match pa.2 with
  | none => none
  | some arg =>
    match argument_type arg with
    | none => none
    | some actual =>
      if matching.any fun o => overload_accepts_at o pa.1 actual then none
      else
        match matching.head? with
        | none => none
        | some o0 =>
          match o0.params.get? pa.1 with
          | none => none
          | some p =>
            match builtin_param_kind p with
            | none => none
            | some expected =>
              some (type_mismatch_diag (node_range arg) expected actual pa.1)

def system_type_diags (matching : List BuiltinFunction) (args : Node) : List Diagnostic :=
  (collect_argument_nodes args).filterMap (system_type_diag_at matching)

/-- The count-accepting overloads for a name at an argument count. -/
def count_matching (tbl : List BuiltinFunction) (name : String) (ac : Nat) :
    List BuiltinFunction :=
  (builtins_lookup tbl name).filter fun o =>
    decide ((builtin_param_counts o).1 ≤ ac) &&
      decide (ac ≤ (builtin_param_counts o).2)

/-- The loop body of check_parameter_count for one call node. -/
def check_call_site (defs : List FunctionDef) (tbl : List BuiltinFunction)
    (call : Node) : List Diagnostic :=
  match first_child_of_kind call "function_name" with
  | none => []
  | some nn =>
    let fn_name := nn.text
    let args_node := child_by_field call "arguments"
    let has_paren := args_node.isSome ||
      call.children.any fun c => !c.named && c.text == "("
    let argc : Option Nat :=
      match args_node with
      | some args => some (count_arg_positions args)
      | none => if has_paren then none else some 0
    match argc with
    | none => []
    | some arg_count =>
      if !has_paren &&
          (call.kind == "numeric_system_function" ||
            call.kind == "string_system_function") then []
      else if call.kind == "numeric_user_function" ||
          call.kind == "string_user_function" then
        match def_map_get defs (to_ascii_lowercase fn_name) with
        | none => []
        | some fdef =>
          if fdef.has_param_substitution || fdef.is_import_only then []
          else
            let required := (fdef.params.filter fun p => !p.is_optional).length
            let total := fdef.params.length
            if arg_count < required || arg_count > total then
              [⟨node_range call, some .warning, none,
                expects_msg fn_name required total arg_count⟩]
            else
              match args_node with
              | some args => user_type_diags fdef args
              | none => []
      else
        let overloads := builtins_lookup tbl fn_name
        if overloads.isEmpty then []
        else
          let matching := count_matching tbl fn_name arg_count
          if matching.isEmpty then
            match overloads.head? with
            | none => []
            | some o0 =>
              [⟨node_range call, some .warning, none,
                expects_msg o0.name (builtin_param_counts o0).1
                  (builtin_param_counts o0).2 arg_count⟩]
          else
            match args_node with
            | some args => system_type_diags matching args
            | none => []

/-- diagnostics.rs check_parameter_count. -/
def check_parameter_count (t : Node) (tbl : List BuiltinFunction) : List Diagnostic :=
  (collect_kinds (user_call_kinds ++ system_call_kinds) t).flatMap
    (check_call_site (extract_definitions t) tbl)

/-! ## C3: arity diagnostics for user-function calls -/

theorem expected_ne_function_msg (a b : String) :
    ("Expected " ++ a) ≠ ("Function " ++ b) := by
  intro h
  have h1 : ("Expected " ++ a).data.head? = some 'E' := by
    rw [String.data_append]
    rfl
  have h2 : ("Function " ++ b).data.head? = some 'F' := by
    rw [String.data_append]
    rfl
  rw [h, h2] at h1
  injection h1 with hc
  exact absurd hc (by decide)

theorem count_diag_not_type (fdef : FunctionDef) (args : Node) (rng : Range)
    (fn : String) (req tot n : Nat) :
    (⟨rng, some .warning, none, expects_msg fn req tot n⟩ : Diagnostic) ∉
      user_type_diags fdef args := by
  intro hmem
  rcases List.mem_filterMap.mp hmem with ⟨pa, _, hsome⟩
  unfold user_type_diag_at at hsome
  split at hsome
  · exact Option.noConfusion hsome
  · split at hsome
    · exact Option.noConfusion hsome
    · split at hsome
      · exact Option.noConfusion hsome
      · split at hsome
        · exact Option.noConfusion hsome
        · injection hsome with hd
          have hm := congrArg Diagnostic.message hd
          simp only [type_mismatch_diag, expects_msg] at hm
          exact expected_ne_function_msg _ _ (by exact hm)

theorem user_kind_beq (call : Node)
    (hkind : call.kind = "numeric_user_function" ∨ call.kind = "string_user_function") :
    (call.kind == "numeric_user_function" || call.kind == "string_user_function") = true ∧
    (call.kind == "numeric_system_function" || call.kind == "string_system_function")
      = false := by
  rcases hkind with h | h <;> rw [h] <;> exact ⟨rfl, rfl⟩

theorem check_call_site_user_args (defs : List FunctionDef) (tbl : List BuiltinFunction)
    (call nn args : Node) (fdef : FunctionDef)
    (hkind : call.kind = "numeric_user_function" ∨ call.kind = "string_user_function")
    (hnn : first_child_of_kind call "function_name" = some nn)
    (hargs : child_by_field call "arguments" = some args)
    (hdef : def_map_get defs (to_ascii_lowercase nn.text) = some fdef) :
    check_call_site defs tbl call =
      if fdef.has_param_substitution || fdef.is_import_only then []
      else
        if count_arg_positions args < (fdef.params.filter fun p => !p.is_optional).length
            || count_arg_positions args > fdef.params.length then
          [⟨node_range call, some .warning, none,
            expects_msg nn.text ((fdef.params.filter fun p => !p.is_optional).length)
              fdef.params.length (count_arg_positions args)⟩]
        else user_type_diags fdef args := by
  obtain ⟨huk, hsk⟩ := user_kind_beq call hkind
  simp only [check_call_site, hnn, hargs, hdef, huk, hsk, Option.isSome_some,
    Bool.true_or, Bool.not_true, Bool.false_and, Bool.false_eq_true, if_false,
    if_true, ite_true, eq_self_iff_true, user_type_diags]

theorem check_call_site_user_noargs (defs : List FunctionDef) (tbl : List BuiltinFunction)
    (call nn : Node) (fdef : FunctionDef)
    (hkind : call.kind = "numeric_user_function" ∨ call.kind = "string_user_function")
    (hnn : first_child_of_kind call "function_name" = some nn)
    (hargs : child_by_field call "arguments" = none)
    (hdef : def_map_get defs (to_ascii_lowercase nn.text) = some fdef) :
    check_call_site defs tbl call =
      if call.children.any (fun c => !c.named && c.text == "(") then []
      else if fdef.has_param_substitution || fdef.is_import_only then []
      else
        if 0 < (fdef.params.filter fun p => !p.is_optional).length then
          [⟨node_range call, some .warning, none,
            expects_msg nn.text ((fdef.params.filter fun p => !p.is_optional).length)
              fdef.params.length 0⟩]
        else [] := by
  obtain ⟨huk, hsk⟩ := user_kind_beq call hkind
  cases hp : call.children.any (fun c => !c.named && c.text == "(") with
  | true => simp [check_call_site, hnn, hargs, hp]
  | false =>
    simp only [check_call_site, hnn, hargs, hp, hdef, huk, hsk, Option.isSome_none,
      Bool.false_or, Bool.not_false, Bool.true_and, Bool.and_false,
      Bool.false_eq_true, if_false, if_true, ite_true, eq_self_iff_true]
    cases hs : (fdef.has_param_substitution || fdef.is_import_only) with
    | true => simp [hs]
    | false =>
      simp only [hs, Bool.false_eq_true, if_false]
      have hgt : decide (0 > fdef.params.length) = false := by simp
      rw [hgt, Bool.or_false]
      by_cases hr : 0 < (fdef.params.filter fun p => !p.is_optional).length
      · rw [if_pos (decide_eq_true hr), if_pos hr]
      · rw [if_neg (by simp [hr]), if_neg hr]

/-- C3: for a user-function call whose name resolves to a local definition,
the count Warning with the exact expects-message is emitted exactly when the
argument count (commas + 1, 0 for empty parens, 0 for calls without
parentheses) is strictly below the required count or strictly above the
total; nothing is emitted when the definition has parameter substitutions or
is import-only, or when the call has inline parens not surfaced as an
arguments field. -/
theorem parameter_count_user_call (t : Node) (tbl : List BuiltinFunction)
    (call nn : Node) (fdef : FunctionDef)
    (hkind : call.kind = "numeric_user_function" ∨ call.kind = "string_user_function")
    (hnn : first_child_of_kind call "function_name" = some nn)
    (hdef : def_map_get (extract_definitions t) (to_ascii_lowercase nn.text) = some fdef) :
    (check_parameter_count t tbl =
      (collect_kinds (user_call_kinds ++ system_call_kinds) t).flatMap
        (check_call_site (extract_definitions t) tbl)) ∧
    ((fdef.has_param_substitution = true ∨ fdef.is_import_only = true) →
      check_call_site (extract_definitions t) tbl call = []) ∧
    (∀ args, child_by_field call "arguments" = some args →
      ((⟨node_range call, some .warning, none,
        expects_msg nn.text ((fdef.params.filter fun p => !p.is_optional).length)
          fdef.params.length (count_arg_positions args)⟩ : Diagnostic) ∈
          check_call_site (extract_definitions t) tbl call ↔
        fdef.has_param_substitution = false ∧ fdef.is_import_only = false ∧
          (count_arg_positions args <
              (fdef.params.filter fun p => !p.is_optional).length ∨
            fdef.params.length < count_arg_positions args))) ∧
    (child_by_field call "arguments" = none →
      call.children.any (fun c => !c.named && c.text == "(") = true →
      check_call_site (extract_definitions t) tbl call = []) ∧
    (child_by_field call "arguments" = none →
      call.children.any (fun c => !c.named && c.text == "(") = false →
      ((⟨node_range call, some .warning, none,
        expects_msg nn.text ((fdef.params.filter fun p => !p.is_optional).length)
          fdef.params.length 0⟩ : Diagnostic) ∈
          check_call_site (extract_definitions t) tbl call ↔
        fdef.has_param_substitution = false ∧ fdef.is_import_only = false ∧
          0 < (fdef.params.filter fun p => !p.is_optional).length)) := by
  refine ⟨rfl, ?_, ?_, ?_, ?_⟩
  · intro h
    have hb : (fdef.has_param_substitution || fdef.is_import_only) = true := by
      rcases h with h | h <;> simp [h]
    cases hargs : child_by_field call "arguments" with
    | some args =>
      rw [check_call_site_user_args _ tbl call nn args fdef hkind hnn hargs hdef,
        if_pos hb]
    | none =>
      rw [check_call_site_user_noargs _ tbl call nn fdef hkind hnn hargs hdef]
      cases hp : call.children.any (fun c => !c.named && c.text == "(") with
      | true => rw [if_pos rfl]
      | false =>
        rw [if_neg (by simp), if_pos hb]
  · intro args hargs
    rw [check_call_site_user_args _ tbl call nn args fdef hkind hnn hargs hdef]
    cases hs : fdef.has_param_substitution with
    | true =>
      simp only [hs, Bool.true_or, if_pos rfl]
      constructor
      · intro h
        exact absurd h (List.not_mem_nil _)
      · rintro ⟨h, -, -⟩
        cases h
    | false =>
      cases hi : fdef.is_import_only with
      | true =>
        simp only [hs, hi, Bool.or_true, if_pos rfl]
        constructor
        · intro h
          exact absurd h (List.not_mem_nil _)
        · rintro ⟨-, h, -⟩
          cases h
      | false =>
        simp only [hs, hi, Bool.or_false, Bool.false_eq_true, if_false]
        by_cases hc : count_arg_positions args <
            (fdef.params.filter fun p => !p.is_optional).length ∨
            fdef.params.length < count_arg_positions args
        · have hcond : (decide (count_arg_positions args <
              (fdef.params.filter fun p => !p.is_optional).length) ||
              decide (count_arg_positions args > fdef.params.length)) = true := by
            rcases hc with h | h <;> simp [h]
          rw [if_pos hcond]
          simp only [List.mem_singleton]
          exact ⟨fun _ => ⟨trivial, trivial, hc⟩, fun _ => trivial⟩
        · have hA : ¬ count_arg_positions args <
              (fdef.params.filter fun p => !p.is_optional).length :=
            fun h => hc (Or.inl h)
          have hB : ¬ count_arg_positions args > fdef.params.length :=
            fun h => hc (Or.inr h)
          rw [if_neg (by rw [decide_eq_false hA, decide_eq_false hB]; simp)]
          constructor
          · intro h
            exact absurd h (count_diag_not_type fdef args _ _ _ _ _)
          · rintro ⟨-, -, h⟩
            exact absurd h hc
  · intro hargs hp
    rw [check_call_site_user_noargs _ tbl call nn fdef hkind hnn hargs hdef, if_pos hp]
  · intro hargs hp
    rw [check_call_site_user_noargs _ tbl call nn fdef hkind hnn hargs hdef,
      if_neg (by simp [hp])]
    cases hs : fdef.has_param_substitution with
    | true =>
      simp only [hs, Bool.true_or, if_pos rfl]
      constructor
      · intro h
        exact absurd h (List.not_mem_nil _)
      · rintro ⟨h, -, -⟩
        cases h
    | false =>
      cases hi : fdef.is_import_only with
      | true =>
        simp only [hs, hi, Bool.or_true, if_pos rfl]
        constructor
        · intro h
          exact absurd h (List.not_mem_nil _)
        · rintro ⟨-, h, -⟩
          cases h
      | false =>
        simp only [hs, hi, Bool.or_false, Bool.false_eq_true, if_false]
        by_cases hc : 0 < (fdef.params.filter fun p => !p.is_optional).length
        · rw [if_pos hc]
          simp only [List.mem_singleton]
          exact ⟨fun _ => ⟨trivial, trivial, hc⟩, fun _ => trivial⟩
        · rw [if_neg hc]
          constructor
          · intro h
            exact absurd h (List.not_mem_nil _)
          · rintro ⟨-, -, h⟩
            exact absurd h hc

def c3_param (nm : String) : Node :=
  Node.mk "required_parameter" true none 0 0 ⟨0, 0⟩ ⟨0, 0⟩ nm [
    Node.mk "parameter" true none 0 0 ⟨0, 0⟩ ⟨0, 0⟩ nm [
      Node.mk "numeric_parameter" true none 0 0 ⟨0, 0⟩ ⟨0, 0⟩ nm [
        Node.mk "numberidentifier" true none 0 0 ⟨0, 0⟩ ⟨0, 0⟩ nm []]]]

def c3_def_stmt : Node :=
  Node.mk "def_statement" true none 0 18 ⟨0, 0⟩ ⟨0, 18⟩ "" [
    Node.mk "numeric_function_definition" true none 0 18 ⟨0, 0⟩ ⟨0, 18⟩ "" [
      Node.mk "function_name" true none 4 9 ⟨0, 4⟩ ⟨0, 9⟩ "fnFoo" [],
      Node.mk "parameter_list" true none 9 14 ⟨0, 9⟩ ⟨0, 14⟩ "" [
        c3_param "A", c3_param "B"]]]

def c3_args : Node :=
  Node.mk "arguments" true (some "arguments") 30 33 ⟨1, 10⟩ ⟨1, 13⟩ "" [
    Node.mk "argument" true none 31 32 ⟨1, 11⟩ ⟨1, 12⟩ "1" []]

def c3_call : Node :=
  Node.mk "numeric_user_function" true none 24 33 ⟨1, 6⟩ ⟨1, 13⟩ "" [
    Node.mk "function_name" true none 24 29 ⟨1, 6⟩ ⟨1, 11⟩ "fnFoo" [],
    c3_args]

def c3_tree : Node :=
  Node.mk "source_file" true none 0 40 ⟨0, 0⟩ ⟨2, 0⟩ "" [
    Node.mk "line" true none 0 19 ⟨0, 0⟩ ⟨1, 0⟩ "" [c3_def_stmt],
    Node.mk "line" true none 19 40 ⟨1, 0⟩ ⟨2, 0⟩ "" [c3_call]]

/-- Witness for C3: a two-parameter local definition called with one
argument yields exactly the expects-2-got-1 Warning. -/
theorem parameter_count_user_call_witness :
    (⟨node_range c3_call, some .warning, none, expects_msg "fnFoo" 2 2 1⟩ :
      Diagnostic) ∈ check_call_site (extract_definitions c3_tree) [] c3_call := by
  have h := (parameter_count_user_call c3_tree [] c3_call
      (Node.mk "function_name" true none 24 29 ⟨1, 6⟩ ⟨1, 11⟩ "fnFoo" [])
      ⟨"fnFoo", ⟨⟨0, 0⟩, ⟨0, 18⟩⟩, ⟨⟨0, 4⟩, ⟨0, 9⟩⟩, false, false,
        [⟨"A", .Numeric, false, false⟩, ⟨"B", .Numeric, false, false⟩], false⟩
      (Or.inl rfl) rfl rfl).2.2.1 c3_args rfl
  exact h.mpr ⟨rfl, rfl, Or.inl (by decide)⟩

/-! ## C4: arity and type diagnostics for system-function calls -/

theorem any_eq_false_iff {α : Type} (l : List α) (p : α → Bool) :
    l.any p = false ↔ ∀ x ∈ l, p x = false := by
  constructor
  · intro h x hx
    cases hb : p x
    · rfl
    · rw [List.any_eq_true.mpr ⟨x, hx, hb⟩] at h
      cases h
  · intro h
    cases hb : l.any p
    · rfl
    · obtain ⟨x, hx, hp⟩ := List.any_eq_true.mp hb
      rw [h x hx] at hp
      cases hp

theorem system_kind_beq (call : Node)
    (hkind : call.kind = "numeric_system_function" ∨
      call.kind = "string_system_function") :
    (call.kind == "numeric_user_function" || call.kind == "string_user_function")
      = false := by
  rcases hkind with h | h <;> rw [h] <;> rfl

theorem check_call_site_system_args (defs : List FunctionDef)
    (tbl : List BuiltinFunction) (call nn args : Node)
    (hkind : call.kind = "numeric_system_function" ∨
      call.kind = "string_system_function")
    (hnn : first_child_of_kind call "function_name" = some nn)
    (hargs : child_by_field call "arguments" = some args) :
    check_call_site defs tbl call =
      if (builtins_lookup tbl nn.text).isEmpty then []
      else
        if (count_matching tbl nn.text (count_arg_positions args)).isEmpty then
          match (builtins_lookup tbl nn.text).head? with
          | none => []
          | some o0 =>
            [⟨node_range call, some .warning, none,
              expects_msg o0.name (builtin_param_counts o0).1
                (builtin_param_counts o0).2 (count_arg_positions args)⟩]
        else
          system_type_diags (count_matching tbl nn.text (count_arg_positions args))
            args := by
  have huk := system_kind_beq call hkind
  simp only [check_call_site, hnn, hargs, huk, Option.isSome_some, Bool.true_or,
    Bool.not_true, Bool.false_and, Bool.false_eq_true, if_false, if_true, ite_true,
    eq_self_iff_true]

/-- C4: for a system-function call with surfaced arguments whose name has
overloads, the required count of each overload is its number of
non-bracketed parameter names and its total is usize::MAX (unbounded) when
the last parameter name is the varargs marker, else its parameter count;
when no overload's range contains the argument count exactly one count
Warning against overload 0 is emitted; otherwise the per-argument type check
fires only when no count-accepting overload accepts the observed type at
that position. -/
theorem parameter_count_system_call (defs : List FunctionDef)
    (tbl : List BuiltinFunction) (call nn args : Node)
    (hkind : call.kind = "numeric_system_function" ∨
      call.kind = "string_system_function")
    (hnn : first_child_of_kind call "function_name" = some nn)
    (hargs : child_by_field call "arguments" = some args)
    (hov : (builtins_lookup tbl nn.text).isEmpty = false) :
    (∀ o : BuiltinFunction,
      (builtin_param_counts o).1 =
        (o.params.filter fun p => !(str_begins p.name "[")).length ∧
      ((∃ p, o.params.getLast? = some p ∧ p.name = "[...]") →
        (builtin_param_counts o).2 = usize_max) ∧
      ((¬ ∃ p, o.params.getLast? = some p ∧ p.name = "[...]") →
        (builtin_param_counts o).2 = o.params.length)) ∧
    (∀ o0, (builtins_lookup tbl nn.text).head? = some o0 →
      (count_matching tbl nn.text (count_arg_positions args)).isEmpty = true →
      check_call_site defs tbl call =
        [⟨node_range call, some .warning, none,
          expects_msg o0.name (builtin_param_counts o0).1
            (builtin_param_counts o0).2 (count_arg_positions args)⟩]) ∧
    ((count_matching tbl nn.text (count_arg_positions args)).isEmpty = false →
      check_call_site defs tbl call =
        system_type_diags (count_matching tbl nn.text (count_arg_positions args))
          args ∧
      ∀ pos arg, (pos, some arg) ∈ collect_argument_nodes args →
        ((system_type_diag_at
            (count_matching tbl nn.text (count_arg_positions args))
            (pos, some arg)).isSome = true ↔
          ∃ actual, argument_type arg = some actual ∧
            ∀ o ∈ count_matching tbl nn.text (count_arg_positions args),
              overload_accepts_at o pos actual = false)) := by
  refine ⟨?_, ?_, ?_⟩
  · intro o
    refine ⟨rfl, ?_, ?_⟩
    · rintro ⟨p, hl, hn⟩
      simp only [builtin_param_counts, hl]
      rw [if_pos (beq_iff_eq.mpr hn)]
    · intro hno
      cases hl : o.params.getLast? with
      | none => simp [builtin_param_counts, hl]
      | some p =>
        have hne : p.name ≠ "[...]" := fun hh => hno ⟨p, hl, hh⟩
        simp only [builtin_param_counts, hl]
        rw [if_neg fun hh => hne (beq_iff_eq.mp hh)]
  · intro o0 hh hempty
    rw [check_call_site_system_args defs tbl call nn args hkind hnn hargs]
    rw [if_neg (by rw [hov]; exact Bool.false_ne_true), if_pos hempty, hh]
  · intro hm
    constructor
    · rw [check_call_site_system_args defs tbl call nn args hkind hnn hargs]
      rw [if_neg (by rw [hov]; exact Bool.false_ne_true),
        if_neg (by rw [hm]; exact Bool.false_ne_true)]
    · intro pos arg _
      cases hat : argument_type arg with
      | none =>
        simp [system_type_diag_at, hat]
      | some actual =>
        cases hany : (count_matching tbl nn.text (count_arg_positions args)).any
            (fun o => overload_accepts_at o pos actual) with
        | true =>
          simp only [system_type_diag_at, hat, hany, if_pos rfl]
          constructor
          · intro h
            cases h
          · rintro ⟨actual', ha', hall⟩
            injection ha' with he
            subst he
            obtain ⟨o, ho, hacc⟩ := List.any_eq_true.mp hany
            rw [hall o ho] at hacc
            cases hacc
        | false =>
          have hall : ∀ o ∈ count_matching tbl nn.text (count_arg_positions args),
              overload_accepts_at o pos actual = false :=
            (any_eq_false_iff _ _).mp hany
          cases hhead : (count_matching tbl nn.text
              (count_arg_positions args)).head? with
          | none =>
            rw [List.head?_eq_none_iff] at hhead
            rw [hhead] at hm
            cases hm
          | some o0 =>
            have hacc0 := hall o0 (List.mem_of_mem_head? hhead)
            cases hg : o0.params.get? pos with
            | none =>
              simp only [overload_accepts_at, hg] at hacc0
              cases hacc0
            | some p =>
              cases hbk : builtin_param_kind p with
              | none =>
                simp only [overload_accepts_at, hg, hbk] at hacc0
                cases hacc0
              | some expected =>
                simp only [system_type_diag_at, hat, hany, hhead, hg, hbk,
                  Bool.false_eq_true, if_false]
                constructor
                · intro _
                  exact ⟨actual, rfl, hall⟩
                · intro _
                  rfl

def c4_tbl : List BuiltinFunction := [⟨"Val", [⟨"<Number$>"⟩]⟩]

def c4_args : Node :=
  Node.mk "arguments" true (some "arguments") 10 17 ⟨0, 10⟩ ⟨0, 17⟩ "" [
    Node.mk "argument" true none 11 14 ⟨0, 11⟩ ⟨0, 14⟩ "\x22" [],
    Node.mk "," false none 14 15 ⟨0, 14⟩ ⟨0, 15⟩ "," [],
    Node.mk "argument" true none 15 16 ⟨0, 15⟩ ⟨0, 16⟩ "2" []]

def c4_call : Node :=
  Node.mk "numeric_system_function" true none 7 17 ⟨0, 7⟩ ⟨0, 17⟩ "" [
    Node.mk "function_name" true none 7 10 ⟨0, 7⟩ ⟨0, 10⟩ "Val" [],
    c4_args]

/-- Witness for C4: Val has one overload taking one parameter; a call with
two arguments matches no overload and yields exactly the count Warning
against overload 0. -/
theorem parameter_count_system_call_witness :
    check_call_site [] c4_tbl c4_call =
      [⟨node_range c4_call, some .warning, none, expects_msg "Val" 1 1 2⟩] := by
  have h := (parameter_count_system_call [] c4_tbl c4_call
      (Node.mk "function_name" true none 7 10 ⟨0, 7⟩ ⟨0, 10⟩ "Val" []) c4_args
      (Or.inl rfl) rfl rfl (by decide)).2.1 ⟨"Val", [⟨"<Number$>"⟩]⟩ rfl (by decide)
  exact h

/-! ## Point containment and node_at_position (src/parser.rs, tree-sitter) -/

/-- Lexicographic order on points, as tree-sitter compares (row, column). -/
def pos_le (a b : Position) : Bool :=
  decide (a.line < b.line) || (a.line == b.line && decide (a.character <= b.character))

def pos_lt (a b : Position) : Bool :=
  decide (a.line < b.line) || (a.line == b.line && decide (a.character < b.character))

/-- Tree-sitter point containment for descendant_for_point_range with a
single point: start <= p < end (a point at a node end lies outside it,
hence the end-of-token fallback in references.rs find_references). -/
def contains_pt (n : Node) (p : Position) : Bool :=
  pos_le n.startPos p && pos_lt p n.endPos

/- The descent path of a point: from the root, repeatedly step into the
first child (named or not) containing the point.  This is how tree-sitter
descendant_for_point_range walks the tree. -/
mutual
def descend_at : Node → Position → List Node
  | .mk k nm f sb eb sp ep tx cs, p =>
    .mk k nm f sb eb sp ep tx cs :: descend_list cs p
def descend_list : List Node → Position → List Node
  | [], _ => []
  | c :: cs, p => if contains_pt c p then descend_at c p else descend_list cs p
end

/-- parser.rs node_at_position: named_descendant_for_point_range with a
single point, i.e. the deepest named node whose extent contains the point. -/
def node_at_position (root : Node) (p : Position) : Option Node :=
  if contains_pt root p then ((descend_at root p).filter Node.named).getLast?
  else none

/-! ## Variable references and scope filtering (src/references.rs) -/

/-- parser.rs QueryResult: the data run_query records per capture. -/
structure QueryResult where
  kind : String
  range : Range
  text : String
  start_byte : Nat
deriving DecidableEq, Repr

def query_result_of (n : Node) : QueryResult :=
  ⟨n.kind, node_range n, n.text, n.startByte⟩

/-- The query find_variable_refs runs: every named name-field child of a
node of the cursor parent kind whose text matches the cursor name.  The
regex built by escape_for_query makes ASCII letters case-insensitive and
everything else (identifier chars, with dollar escaped) literal and
anchored, which on identifier text is exactly eq_ignore_ascii_case. -/
def query_var_refs (root : Node) (parent_type name : String) : List QueryResult :=
  root.preorder.flatMap fun pnode =>
    if pnode.kind == parent_type then
      (pnode.children.filter fun c =>
        c.named && c.fieldName == some "name" &&
          eq_ignore_ascii_case c.text name).map query_result_of
    else []

structure FunctionRange where
  def_start_byte : Nat
  body_end_byte : Nat
deriving DecidableEq, Repr

/-- The captures of the query "(line (def_statement) @def)
(fnend_statement) @fnend": def_statement nodes that are named children of a
line node, and fnend_statement nodes, in document order. -/
def fnrange_query (root : Node) : List QueryResult :=
  (root.preorder.filter fun n =>
    (n.named && n.kind == "def_statement" &&
      (match parent_of root n with
       | some p => p.kind == "line"
       | none => false)) ||
    (n.named && n.kind == "fnend_statement")).map query_result_of

/-- references.rs get_function_ranges: pair each fnend with the pending def. -/
def get_function_ranges (root : Node) : List FunctionRange :=
  (fnrange_query root).foldl
    (fun (st : List FunctionRange × Option QueryResult) r =>
      if r.kind == "def_statement" then (st.1, some r)
      else if r.kind == "fnend_statement" then
        match st.2 with
        | some d => (st.1 ++ [⟨d.start_byte, r.start_byte⟩], none)
        | none => st
      else st)
    ([], none)
  |>.1

/-- references.rs in_function: index of the first range containing the byte. -/
def in_function (byte_offset : Nat) (ranges : List FunctionRange) : Option Nat :=
  ranges.findIdx? fun r =>
    decide (r.def_start_byte <= byte_offset) && decide (byte_offset <= r.body_end_byte)

/-- references.rs has_matching_identifier: DFS over the parameter subtree
for an identifier with the cursor parent kind and a case-insensitive
matching name.  (Node::parent is relative to the whole tree.) -/
def has_matching_identifier (root param_node : Node) (parent_type name : String) : Bool :=
  param_node.preorder.any fun n =>
    (n.kind == "stringidentifier" || n.kind == "numberidentifier") &&
      (match parent_of root n with
       | some p => p.kind == parent_type
       | none => false) &&
      eq_ignore_ascii_case n.text name

/-- references.rs is_param_of_function. -/
def is_param_of_function (root node : Node) (def_start_byte body_end_byte : Nat) : Bool :=
  match parent_of root node with
  | none => false
  | some par =>
    (collect_kinds ["parameter"] root).any fun r =>
      decide (def_start_byte <= r.startByte) && decide (r.startByte <= body_end_byte) &&
        (match node_at_position root r.startPos with
         | none => false
         | some param_node =>
           has_matching_identifier root param_node par.kind node.text)

/-- The per-result predicate of the non-parameter branch of filter_by_scope:
keep a result unless it resolves to a node that is a parameter of the
function range containing it. -/
def keep_ref (root : Node) (fn_ranges : List FunctionRange) (r : QueryResult) : Bool :=
  match node_at_position root r.range.start with
  | some ref_node =>
    match in_function r.start_byte fn_ranges with
    | some idx =>
      match fn_ranges.get? idx with
      | some fr => !is_param_of_function root ref_node fr.def_start_byte fr.body_end_byte
      | none => true
    | none => true
  | none => true

/-- references.rs filter_by_scope.  (The Rust code indexes fn_ranges[idx]
with an index produced by in_function, which is always in bounds; the
out-of-bounds match arms here are unreachable.) -/
def filter_by_scope (root node : Node) (results : List QueryResult) : List Range :=
  let fn_ranges := get_function_ranges root
  let cursor_byte := node.startByte
  let cursor_fn_idx := in_function cursor_byte fn_ranges
  let is_cursor_param :=
    match cursor_fn_idx with
    | some idx =>
      match fn_ranges.get? idx with
      | some fr => is_param_of_function root node fr.def_start_byte fr.body_end_byte
      | none => false
    | none => false
  if is_cursor_param then
    match cursor_fn_idx with
    | some idx =>
      match fn_ranges.get? idx with
      | some fr =>
        (results.filter fun r =>
          decide (fr.def_start_byte <= r.start_byte) &&
            decide (r.start_byte <= fr.body_end_byte)).map fun r => r.range
      | none => []
    | none => []
  else
    (results.filter (keep_ref root fn_ranges)).map fun r => r.range

/-- references.rs find_variable_refs. -/
def find_variable_refs (root node : Node) : List Range :=
  match parent_of root node with
  | none => []
  | some parent =>
    filter_by_scope root node (query_var_refs root parent.kind node.text)

/-- C7: references returned for a cursor on a parameter occurrence are all
query results lying inside the containing function byte range; for a cursor
outside every function range the results are the query results surviving
keep_ref, and keep_ref rejects every result that resolves to a parameter of
the function range containing it. -/
theorem variable_reference_scope (root node par : Node)
    (hpar : parent_of root node = some par) :
    (∀ idx fr, in_function node.startByte (get_function_ranges root) = some idx →
      (get_function_ranges root).get? idx = some fr →
      is_param_of_function root node fr.def_start_byte fr.body_end_byte = true →
      ∀ rg ∈ find_variable_refs root node,
        ∃ qr ∈ query_var_refs root par.kind node.text,
          qr.range = rg ∧ fr.def_start_byte ≤ qr.start_byte ∧
            qr.start_byte ≤ fr.body_end_byte) ∧
    (in_function node.startByte (get_function_ranges root) = none →
      find_variable_refs root node =
        ((query_var_refs root par.kind node.text).filter
          (keep_ref root (get_function_ranges root))).map (fun r => r.range) ∧
      ∀ qr ∈ query_var_refs root par.kind node.text,
        ∀ idx fr rn,
          in_function qr.start_byte (get_function_ranges root) = some idx →
          (get_function_ranges root).get? idx = some fr →
          node_at_position root qr.range.start = some rn →
          is_param_of_function root rn fr.def_start_byte fr.body_end_byte = true →
          keep_ref root (get_function_ranges root) qr = false) := by
  constructor
  · intro idx fr hidx hget hparam rg hrg
    simp only [find_variable_refs, hpar] at hrg
    simp only [filter_by_scope, hidx, hget, hparam, if_true, ite_true] at hrg
    rcases List.mem_map.mp hrg with ⟨qr, hqf, hrange⟩
    rcases List.mem_filter.mp hqf with ⟨hqm, hcond⟩
    simp only [Bool.and_eq_true, decide_eq_true_eq] at hcond
    exact ⟨qr, hqm, hrange, hcond.1, hcond.2⟩
  · intro hnone
    constructor
    · simp only [find_variable_refs, hpar, filter_by_scope, hnone]
      simp
    · intro qr _ idx fr rn h1 h2 h3 h4
      rw [keep_ref, h3, h1]
      simp only [h2, h4]
      rfl

/-! A concrete three-line document:
  line 0: "def fnFoo(X)"   (def_statement with parameter X)
  line 1: "let Y = X + 1"  (X occurs in the function body)
  line 2: "fnend"                                              -/

def c7_pid : Node :=
  ⟨"numberidentifier", true, some "name", 10, 11, ⟨0, 10⟩, ⟨0, 11⟩, "X", []⟩

def c7_pref : Node :=
  ⟨"numberreference", true, none, 10, 11, ⟨0, 10⟩, ⟨0, 11⟩, "X", [c7_pid]⟩

def c7_param : Node :=
  ⟨"parameter", true, none, 10, 11, ⟨0, 10⟩, ⟨0, 11⟩, "X", [c7_pref]⟩

def c7_fname : Node :=
  ⟨"function_name", true, none, 4, 9, ⟨0, 4⟩, ⟨0, 9⟩, "fnFoo", []⟩

def c7_kwdef : Node :=
  ⟨"def", false, none, 0, 3, ⟨0, 0⟩, ⟨0, 3⟩, "def", []⟩

def c7_def_stmt : Node :=
  ⟨"def_statement", true, none, 0, 12, ⟨0, 0⟩, ⟨0, 12⟩, "def fnFoo(X)",
    [c7_kwdef, c7_fname, c7_param]⟩

def c7_line0 : Node :=
  ⟨"line", true, none, 0, 13, ⟨0, 0⟩, ⟨1, 0⟩, "def fnFoo(X)\n", [c7_def_stmt]⟩

def c7_xid : Node :=
  ⟨"numberidentifier", true, some "name", 21, 22, ⟨1, 8⟩, ⟨1, 9⟩, "X", []⟩

def c7_xref : Node :=
  ⟨"numberreference", true, none, 21, 22, ⟨1, 8⟩, ⟨1, 9⟩, "X", [c7_xid]⟩

def c7_let_stmt : Node :=
  ⟨"let_statement", true, none, 13, 26, ⟨1, 0⟩, ⟨1, 13⟩, "let Y = X + 1", [c7_xref]⟩

def c7_line1 : Node :=
  ⟨"line", true, none, 13, 27, ⟨1, 0⟩, ⟨2, 0⟩, "let Y = X + 1\n", [c7_let_stmt]⟩

def c7_fnend : Node :=
  ⟨"fnend_statement", true, none, 27, 32, ⟨2, 0⟩, ⟨2, 5⟩, "fnend", []⟩

def c7_line2 : Node :=
  ⟨"line", true, none, 27, 33, ⟨2, 0⟩, ⟨3, 0⟩, "fnend\n", [c7_fnend]⟩

def c7_tree : Node :=
  ⟨"program", true, none, 0, 33, ⟨0, 0⟩, ⟨3, 0⟩, "def fnFoo(X)\nlet Y = X + 1\nfnend\n",
    [c7_line0, c7_line1, c7_line2]⟩

/-- A cursor on the body occurrence of X (a parameter of fnFoo): every
reported reference comes from a query result inside the function range. -/
theorem variable_reference_scope_witness :
    (in_function c7_xid.startByte (get_function_ranges c7_tree) = some 0 ∧
      (get_function_ranges c7_tree).get? 0 = some ⟨0, 27⟩ ∧
      is_param_of_function c7_tree c7_xid 0 27 = true) ∧
    ∀ rg ∈ find_variable_refs c7_tree c7_xid,
      ∃ qr ∈ query_var_refs c7_tree "numberreference" "X",
        qr.range = rg ∧ 0 ≤ qr.start_byte ∧ qr.start_byte ≤ 27 := by
  refine ⟨⟨by decide, by decide, by decide⟩, ?_⟩
  exact (variable_reference_scope c7_tree c7_xid c7_xref rfl).1 0 ⟨0, 27⟩
    (by decide) (by decide) (by decide)

/-! ## Function stub code action (src/code_action.rs) -/

def after_char (q : Char) : List Char → Option (List Char)
  | [] => none
  | c :: cs => if c == q then some cs else after_char q cs

def up_to_char (q : Char) : List Char → Option (List Char)
  | [] => none
  | c :: cs => if c == q then some [] else (up_to_char q cs).map fun l => c :: l

/-- code_action.rs extract_function_name: the text between the first two
single quotes of the diagnostic message. -/
def extract_function_name (message : String) : Option String :=
  (after_char (Char.ofNat 39) message.data).bind fun rest =>
    (up_to_char (Char.ofNat 39) rest).map fun l => String.mk l

/-- code_action.rs find_call_node: the named node at the position, then up
through its ancestors (named or not) to a user-function call node. -/
def find_call_node (root : Node) (p : Position) : Option Node :=
  if contains_pt root p then
    ((descend_at root p).reverse.dropWhile fun n => !n.named).find? fun n =>
      n.kind == "numeric_user_function" || n.kind == "string_user_function"
  else none

/- code_action.rs find_variable_node: stop at a variable-reference kind;
otherwise descend only when the node has exactly one named child (the first
named child then), avoiding matches inside complex expressions. -/
mutual
def find_variable_node : Node → Option Node
  | .mk k nm f sb eb sp ep tx cs =>
    if ["numberidentifier", "stringidentifier", "numberarray", "stringarray",
        "stringreference"].contains k then
      some (.mk k nm f sb eb sp ep tx cs)
    else if (cs.filter Node.named).length == 1 then fvn_first_named cs
    else none
def fvn_first_named : List Node → Option Node
  | [] => none
  | c :: cs => if c.named then find_variable_node c else fvn_first_named cs
end

/-- code_action.rs find_identifier_in_array. -/
def find_identifier_in_array (array_node : Node) : Option Node :=
  array_node.children.find? fun c =>
    c.kind == "numberidentifier" || c.kind == "stringidentifier"

/-- code_action.rs infer_param_name: argument → expression →
typed expression → simple variable reference. -/
def infer_param_name (arg_node : Node) : Option String :=
  match named_child arg_node 0 with
  | none => none
  | some expr =>
    if expr.kind == "expression" then
      match named_child expr 0 with
      | none => none
      | some typed_expr =>
        match find_variable_node typed_expr with
        | none => none
        | some var_node =>
          if var_node.kind == "numberarray" || var_node.kind == "stringarray" then
            match find_identifier_in_array var_node with
            | none => none
            | some id_node => some ("Mat " ++ id_node.text)
          else if var_node.kind == "numberidentifier" ||
              var_node.kind == "stringidentifier" ||
              var_node.kind == "stringreference" then
            some var_node.text
          else none
    else none

/-- code_action.rs generic_param_name. -/
def generic_param_name (index : Nat) (kind : ParamKind) : String :=
  match kind with
  | .Numeric => "Param" ++ toString (index + 1)
  | .String => "Param" ++ toString (index + 1) ++ "$"
  | .NumericArray => "Mat Param" ++ toString (index + 1)
  | .StringArray => "Mat Param" ++ toString (index + 1) ++ "$"

/-- code_action.rs local ParamInfo (call-site inferred name and kind). -/
structure StubParam where
  name : String
  kind : ParamKind
deriving DecidableEq, Repr

/-- code_action.rs infer_params. -/
def infer_params (call_node : Node) : List StubParam :=
  match child_by_field call_node "arguments" with
  | none => []
  | some args_node =>
    (collect_argument_nodes args_node).enum.map fun ie =>
      let kind := (ie.2.2.bind argument_type).getD ParamKind.Numeric
      let name := (ie.2.2.bind infer_param_name).getD (generic_param_name ie.1 kind)
      ⟨name, kind⟩

/-- code_action.rs format_param. -/
def format_param (param : StubParam) : String :=
  if str_begins param.name "Mat " then param.name
  else
    match param.kind with
    | .NumericArray => "Mat " ++ param.name
    | .StringArray => "Mat " ++ param.name
    | _ => param.name

/-- code_action.rs last_line_number: largest parsed line_number, default 0. -/
def last_line_number (t : Node) : Int :=
  (((collect_kinds ["line_number"] t).filterMap fun r =>
    parse_i64 (trim_str r.text)).max?).getD 0

/-- code_action.rs next_line_number (Rust i64 division truncates). -/
def next_line_number (last : Int) : Int := (Int.tdiv last 10 + 1) * 10

/-- Rust slice join. -/
def join_sep (sep : String) : List String → String
  | [] => ""
  | [s] => s
  | s :: rest => s ++ sep ++ join_sep sep rest

/-- code_action.rs generate_stub: the four stub lines. -/
def generate_stub (fn_name : String) (params : List StubParam) (start_ln : Int) : String :=
  let default_value := if str_ends fn_name "$" then "\"\"" else "0"
  let params_str :=
    if params.isEmpty then ""
    else "(" ++ join_sep "," (params.map format_param) ++ ")"
  "\n" ++ fmt05 start_ln ++ " DEF " ++ fn_name ++ params_str ++
    "\n" ++ fmt05 (start_ln + 10) ++ " ! TODO: Implement " ++ fn_name ++
    "\n" ++ fmt05 (start_ln + 20) ++ " LET " ++ fn_name ++ "=" ++ default_value ++
    "\n" ++ fmt05 (start_ln + 30) ++ " FNEND\n"

def split_nl : List Char → List (List Char)
  | [] => [[]]
  | c :: cs =>
    if c == Char.ofNat 10 then [] :: split_nl cs
    else
      match split_nl cs with
      | [] => [[c]]
      | seg :: rest => (c :: seg) :: rest

/-- Rust str::lines().count(): newline-separated segments, not counting the
empty segment after a trailing newline. -/
def rust_lines_count (s : String) : Nat :=
  let segs := split_nl s.data
  match segs.getLast? with
  | some [] => segs.length - 1
  | _ => segs.length

/-- The observable content of the produced CodeAction: its title and the
single TextEdit (an insertion, so both range endpoints coincide). -/
structure StubAction where
  title : String
  insert_at : Position
  new_text : String
deriving DecidableEq, Repr

/-- code_action.rs create_function_stub_action. -/
def create_function_stub_action (t : Node) (source : String)
    (diagnostic : Diagnostic) : Option StubAction :=
  match diagnostic.code with
  | some c =>
    if c == "undefined-function" then
      match extract_function_name diagnostic.message with
      | none => none
      | some fn_name =>
        match find_call_node t diagnostic.range.start with
        | none => none
        | some call_node =>
          let params := infer_params call_node
          let stub_start := next_line_number (last_line_number t)
          let stub := generate_stub fn_name params stub_start
          some ⟨"Generate function stub for " ++ sq ++ fn_name ++ sq,
            ⟨rust_lines_count source, 0⟩, stub⟩
    else none
  | none => none

/-- C8: for an undefined-function diagnostic whose call site is found, the
code action inserts at end of file a stub of four line-numbered lines
starting at the next multiple of 10 after the highest line number (DEF with
the inferred parameter list, TODO comment, LET default, FNEND); the start
line is the least multiple of 10 strictly above the highest line number;
parameter names come from simple-identifier arguments (Mat-prefixed for
arrays) and otherwise are the generic Param names. -/
theorem function_stub_generation (t : Node) (source : String) (diag : Diagnostic)
    (fn_name : String) (call : Node)
    (hcode : diag.code = some "undefined-function")
    (hname : extract_function_name diag.message = some fn_name)
    (hcall : find_call_node t diag.range.start = some call)
    (hlast : 0 ≤ last_line_number t) :
    (∃ act, create_function_stub_action t source diag = some act ∧
      act.insert_at = ⟨rust_lines_count source, 0⟩ ∧
      act.title = "Generate function stub for " ++ sq ++ fn_name ++ sq ∧
      act.new_text =
        "\n" ++ fmt05 (next_line_number (last_line_number t)) ++ " DEF " ++ fn_name ++
          (if (infer_params call).isEmpty then ""
           else "(" ++ join_sep "," ((infer_params call).map format_param) ++ ")") ++
        "\n" ++ fmt05 (next_line_number (last_line_number t) + 10) ++
          " ! TODO: Implement " ++ fn_name ++
        "\n" ++ fmt05 (next_line_number (last_line_number t) + 20) ++ " LET " ++
          fn_name ++ "=" ++ (if str_ends fn_name "$" then "\"\"" else "0") ++
        "\n" ++ fmt05 (next_line_number (last_line_number t) + 30) ++ " FNEND\n") ∧
    (10 ∣ next_line_number (last_line_number t) ∧
      last_line_number t < next_line_number (last_line_number t) ∧
      ∀ m : Int, 10 ∣ m → last_line_number t < m →
        next_line_number (last_line_number t) ≤ m) ∧
    (∀ arg expr typed v, named_child arg 0 = some expr → expr.kind = "expression" →
      named_child expr 0 = some typed → find_variable_node typed = some v →
      (v.kind = "numberidentifier" ∨ v.kind = "stringidentifier" ∨
        v.kind = "stringreference") →
      infer_param_name arg = some v.text) ∧
    (∀ arg expr typed v idn, named_child arg 0 = some expr → expr.kind = "expression" →
      named_child expr 0 = some typed → find_variable_node typed = some v →
      (v.kind = "numberarray" ∨ v.kind = "stringarray") →
      find_identifier_in_array v = some idn →
      infer_param_name arg = some ("Mat " ++ idn.text)) ∧
    (∀ i, generic_param_name i .Numeric = "Param" ++ toString (i + 1) ∧
      generic_param_name i .String = "Param" ++ toString (i + 1) ++ "$" ∧
      generic_param_name i .NumericArray = "Mat Param" ++ toString (i + 1) ∧
      generic_param_name i .StringArray = "Mat Param" ++ toString (i + 1) ++ "$") := by
  have hq : Int.tdiv (last_line_number t) 10 = last_line_number t / 10 :=
    Int.tdiv_eq_ediv hlast (by norm_num)
  refine ⟨?_, ⟨?_, ?_, ?_⟩, ?_, ?_, ?_⟩
  · refine ⟨⟨"Generate function stub for " ++ sq ++ fn_name ++ sq,
      ⟨rust_lines_count source, 0⟩,
      generate_stub fn_name (infer_params call)
        (next_line_number (last_line_number t))⟩, ?_, rfl, rfl, ?_⟩
    · simp only [create_function_stub_action, hcode, hname, hcall,
        beq_self_eq_true, ite_true]
    · rfl
  · exact ⟨Int.tdiv (last_line_number t) 10 + 1, mul_comm _ 10⟩
  · exact Int.lt_tdiv_add_one_mul_self _ (by norm_num)
  · intro m hdvd hlt
    obtain ⟨k, hk⟩ := hdvd
    rw [next_line_number, hq]
    omega
  · intro arg expr typed v h1 h2 h3 h4 h5
    rcases h5 with hk | hk | hk <;>
      simp [infer_param_name, h1, h2, h3, h4, hk]
  · intro arg expr typed v idn h1 h2 h3 h4 h5 h6
    rcases h5 with hk | hk <;>
      simp [infer_param_name, h1, h2, h3, h4, hk, h6]
  · intro i
    exact ⟨rfl, rfl, rfl, rfl⟩

/-! A concrete one-line document "00100 let X = fnFoo(A)" with an
undefined-function diagnostic on the fnFoo name token. -/

def c8_ln : Node :=
  ⟨"line_number", true, none, 0, 5, ⟨0, 0⟩, ⟨0, 5⟩, "00100", []⟩

def c8_idA : Node :=
  ⟨"numberidentifier", true, none, 20, 21, ⟨0, 20⟩, ⟨0, 21⟩, "A", []⟩

def c8_typedA : Node :=
  ⟨"numeric_expression", true, none, 20, 21, ⟨0, 20⟩, ⟨0, 21⟩, "A", [c8_idA]⟩

def c8_exprA : Node :=
  ⟨"expression", true, none, 20, 21, ⟨0, 20⟩, ⟨0, 21⟩, "A", [c8_typedA]⟩

def c8_argA : Node :=
  ⟨"argument", true, none, 20, 21, ⟨0, 20⟩, ⟨0, 21⟩, "A", [c8_exprA]⟩

def c8_lp : Node :=
  ⟨"(", false, none, 19, 20, ⟨0, 19⟩, ⟨0, 20⟩, "(", []⟩

def c8_rp : Node :=
  ⟨")", false, none, 21, 22, ⟨0, 21⟩, ⟨0, 22⟩, ")", []⟩

def c8_args : Node :=
  ⟨"arguments", true, some "arguments", 19, 22, ⟨0, 19⟩, ⟨0, 22⟩, "(A)",
    [c8_lp, c8_argA, c8_rp]⟩

def c8_fname : Node :=
  ⟨"function_name", true, some "name", 14, 19, ⟨0, 14⟩, ⟨0, 19⟩, "fnFoo", []⟩

def c8_call : Node :=
  ⟨"numeric_user_function", true, none, 14, 22, ⟨0, 14⟩, ⟨0, 22⟩, "fnFoo(A)",
    [c8_fname, c8_args]⟩

def c8_tree : Node :=
  ⟨"program", true, none, 0, 23, ⟨0, 0⟩, ⟨1, 0⟩, "00100 let X = fnFoo(A)\n",
    [c8_ln, c8_call]⟩

def c8_source : String := "00100 let X = fnFoo(A)\n"

def c8_diag : Diagnostic :=
  ⟨⟨⟨0, 14⟩, ⟨0, 19⟩⟩, some .warning, some "undefined-function",
    "Function " ++ sq ++ "fnFoo" ++ sq ++ " is not defined in the workspace"⟩

/-- The stub for fnFoo(A) after line 00100: inserted at end of file, lines
00110-00140, parameter named after the identifier argument A. -/
theorem function_stub_generation_witness :
    (c8_diag.code = some "undefined-function" ∧ 0 ≤ last_line_number c8_tree) ∧
    ∃ act, create_function_stub_action c8_tree c8_source c8_diag = some act ∧
      act.insert_at = ⟨1, 0⟩ ∧
      act.new_text =
        "\n00110 DEF fnFoo(A)\n00120 ! TODO: Implement fnFoo\n00130 LET fnFoo=0\n00140 FNEND\n" := by
  refine ⟨⟨rfl, by decide⟩, ?_⟩
  obtain ⟨act, h1, h2, _, h4⟩ :=
    (function_stub_generation c8_tree c8_source c8_diag "fnFoo" c8_call rfl rfl rfl
      (by decide)).1
  exact ⟨act, h1, h2.trans (by decide), h4.trans (by decide)⟩

end BrLsp
